import Mathlib

/-!
# ecommerce_pwa: cart store, sync queue and service worker

A shallow embedding of `src/indexedDB.js`, `src/serviceWorkerRegistration.js`,
`src/Commerce.jsx`, `sw.js` and `ano.js`.

Asynchronous platform calls (IndexedDB transactions, `fetch`, timers) are
embedded by explicit state passing: the database is a value, and everything the
platform decides (whether `indexedDB.open` succeeds, whether a transaction
commits, what the clock reads, whether the network answers) is an explicit
argument of the function that makes the call.
-/

namespace EcommercePwa

/-! ## indexedDB.js -/

/-- How a JavaScript promise ends: resolved, rejected, or never settled. -/
inductive Settled where
  | resolved
  | rejected
  | pending
  deriving DecidableEq, Repr

/-- A product as `addToCart` reads it: `product_id`, `name`, `price`.
`price` is a payload that is only copied. -/
structure Product where
  product_id : Nat
  name : String
  price : Int
  deriving DecidableEq, Repr

/-- A JavaScript number as the cart uses it: a double that holds an integer, or
one that is not finite (`Infinity`, `-Infinity`, `NaN`). -/
inductive JsNumber where
  | finite (n : Int)
  | nonFinite
  deriving DecidableEq, Repr

/-- The exponent `k` of the spacing `2 ^ k` between the doubles around the
magnitude `m`: the least `k`, tried upwards from the given one, with
`m / 2 ^ k` below `2 ^ 53` (a double keeps 53 binary digits). -/
def ulpExponent (m : Nat) : Nat → Nat → Option Nat
  | 0, _ => none
  | fuel + 1, k => if m / 2 ^ k < 2 ^ 53 then some k else ulpExponent m fuel (k + 1)

/-- The double that JavaScript stores for the exact integer `x`: `x` itself when
it fits in 53 binary digits, otherwise the nearest multiple of the spacing
`2 ^ k` (a tie goes to the even multiple), and `Infinity` beyond the largest
double (spacing `2 ^ 971`). -/
def toDouble (x : Int) : JsNumber :=
  match ulpExponent x.natAbs 972 0 with
  | none => JsNumber.nonFinite
  | some k =>
    let ulp := 2 ^ k
    let down := x.natAbs / ulp * ulp
    let rounded :=
      if 2 * (x.natAbs % ulp) < ulp then down
      else if ulp < 2 * (x.natAbs % ulp) then down + ulp
      else if x.natAbs / ulp % 2 = 0 then down
      else down + ulp
    if k = 971 ∧ 2 ^ 53 ≤ rounded / ulp then JsNumber.nonFinite
    else JsNumber.finite (if x < 0 then -(rounded : Int) else (rounded : Int))

/-- The sum `a + b` of JavaScript for a stored number `a` and an integer `b`: the
exact sum rounded to a double; a number that is not finite stays so. -/
def jsAdd (a : JsNumber) (b : Int) : JsNumber :=
  match a with
  | JsNumber.nonFinite => JsNumber.nonFinite
  | JsNumber.finite n => toDouble (n + b)

/-- A record of the `cart` object store (`keyPath: 'id'`). -/
structure CartItem where
  id : Nat
  product_id : Nat
  name : String
  price : Int
  quantity : JsNumber
  timestamp : Nat
  deriving DecidableEq, Repr

/-- A record of the `sync-operations` object store
(`keyPath: 'id', autoIncrement: true`). -/
structure SyncOperation where
  id : Nat
  type : String
  product_id : Nat
  quantity : Int
  timestamp : Nat
  deriving DecidableEq, Repr

/-- The database `pwa-commerce-db`: both object stores, each held in key order
as `getAll()` lists it, and the key generator of the auto-increment store
(the next key it hands out; 1 in a fresh database). -/
structure Db where
  cart : List CartItem
  sync : List SyncOperation
  syncKeyGen : Nat
  deriving DecidableEq, Repr

/-- The database right after `onupgradeneeded` created the two stores. -/
def Db.fresh : Db := { cart := [], sync := [], syncKeyGen := 1 }

/-- `store.get(key)` on the cart store: the record with that key, if any. -/
def cartGet (key : Nat) (store : List CartItem) : Option CartItem :=
  store.find? (fun r => r.id == key)

/-- `store.put(record)` on the cart store: replaces the record with the same
key, or inserts the record at its place in key order. -/
def cartPut (item : CartItem) : List CartItem → List CartItem
  | [] => [item]
  | r :: rest =>
    if item.id < r.id then item :: r :: rest
    else if item.id = r.id then item :: rest
    else r :: cartPut item rest

/-- `store.add(record)` on the cart store: like `put`, but a record with the
same key makes the request fail (`ConstraintError`), which aborts the
transaction. -/
def cartAdd (item : CartItem) (store : List CartItem) : Option (List CartItem) :=
  match cartGet item.id store with
  | some _ => none
  | none => some (cartPut item store)

/-- `store.add(operation)` on the auto-increment store for a record without an
`id`: the key generator supplies the key, the record goes to its place in key
order, and the generator moves on. -/
def syncInsert (op : SyncOperation) : List SyncOperation → List SyncOperation
  | [] => [op]
  | r :: rest =>
    if op.id < r.id then op :: r :: rest
    else if op.id = r.id then op :: rest
    else r :: syncInsert op rest

/-- What the platform decides during one `addToCart` call. -/
structure AddEnv where
  /-- The `openDB()` of `addToCart` (line 43) resolves. -/
  openCart : Bool
  /-- The `openDB()` of `addSyncOperation` (line 109) resolves. -/
  openSync : Bool
  /-- The `sync-operations` transaction fires `complete` (not `error`). -/
  syncTxOk : Bool
  /-- The `cart` transaction fires `complete` (not `error`). -/
  cartTxOk : Bool
  /-- The `cart` transaction is still running when `addSyncOperation` resolves,
  so that the handlers of lines 79-80 are attached before it fires its event. -/
  cartTxLate : Bool
  /-- The clock at line 65. -/
  cartNow : Nat
  /-- The clock at line 75. -/
  syncNow : Nat
  deriving DecidableEq, Repr

/-- The function `addSyncOperation` of indexedDB.js (lines 107-123): opens the
database, adds the operation in a transaction of its own on `sync-operations`,
and settles with that transaction. An aborted transaction leaves the store and
its key generator as they were. -/
def addSyncOperation (type : String) (product_id : Nat) (quantity : Int) (timestamp : Nat)
    (openOk txOk : Bool) (db : Db) : Settled × Db :=
  if !openOk then (Settled.rejected, db)
  else if !txOk then (Settled.rejected, db)
  else
    let op : SyncOperation :=
      { id := db.syncKeyGen, type := type, product_id := product_id,
        quantity := quantity, timestamp := timestamp }
    (Settled.resolved,
      { db with sync := syncInsert op db.sync, syncKeyGen := db.syncKeyGen + 1 })

/-- The `request.onsuccess` handler of `addToCart` (lines 50-68), run inside the
`cart` transaction: increments the quantity of the existing line item with the
`+=` of JavaScript numbers (line 55), or adds a new one. `quantity` is an
integer that a JavaScript number holds. `none` stands for a failed request. -/
def cartOnSuccess (product : Product) (quantity : Int) (now : Nat)
    (store : List CartItem) : Option (List CartItem) :=
  match cartGet product.product_id store with
  | some existingItem =>
    some (cartPut { existingItem with quantity := jsAdd existingItem.quantity quantity } store)
  | none =>
    cartAdd
      { id := product.product_id, product_id := product.product_id, name := product.name,
        price := product.price, quantity := JsNumber.finite quantity, timestamp := now } store

/-- The `cart` transaction of `addToCart`: it commits what the handler wrote if
it completes, and leaves the store as it was otherwise. -/
def cartTransaction (product : Product) (quantity : Int) (env : AddEnv)
    (store : List CartItem) : Bool × List CartItem :=
  match cartOnSuccess product quantity env.cartNow store with
  | some store' => if env.cartTxOk then (true, store') else (false, store)
  | none => (false, store)

/-- The function `addToCart` of indexedDB.js (lines 41-86; `quantity` is 1 when
the caller leaves it out, and is an integer that a JavaScript number holds). The `cart` transaction is opened first and runs on
its own; `addSyncOperation` is awaited in between, in a second transaction; the
returned promise listens to the `cart` transaction only after that. -/
def addToCart (product : Product) (quantity : Int) (env : AddEnv) (db : Db) : Settled × Db :=
  if !env.openCart then (Settled.rejected, db)
  else
    let tx := cartTransaction product quantity env db.cart
    let r := addSyncOperation "add-to-cart" product.product_id quantity env.syncNow
      env.openSync env.syncTxOk db
    let db' : Db := { r.2 with cart := tx.2 }
    match r.1 with
    | Settled.resolved =>
      if !env.cartTxLate then (Settled.pending, db')
      else if tx.1 then (Settled.resolved, db')
      else (Settled.rejected, db')
    | other => (other, db')

/-- The function `getCartItems` of indexedDB.js (lines 89-104): `getAll()` on the
`cart` store, or a rejection when the database does not open. -/
def getCartItems (openOk : Bool) (db : Db) : Option (List CartItem) :=
  if openOk then some db.cart else none

/-- The function `getPendingSyncOperations` of indexedDB.js (lines 126-141). -/
def getPendingSyncOperations (openOk : Bool) (db : Db) : Option (List SyncOperation) :=
  if openOk then some db.sync else none

/-- The function `clearSyncOperations` of indexedDB.js (lines 144-159):
`store.clear()`, which empties the store and keeps the key generator. -/
def clearSyncOperations (openOk : Bool) (db : Db) : Settled × Db :=
  if openOk then (Settled.resolved, { db with sync := [] }) else (Settled.rejected, db)

/-- One call of `addToCart`: its arguments and what the platform decides. -/
structure AddCall where
  product : Product
  quantity : Int
  env : AddEnv
  deriving DecidableEq, Repr

/-- A sequence of `addToCart` calls, each awaited before the next: how each call
settled, and the database at the end. -/
def addToCartAll : List AddCall → Db → List Settled × Db
  | [], db => ([], db)
  | c :: rest, db =>
    let r := addToCart c.product c.quantity c.env db
    let rs := addToCartAll rest r.2
    (r.1 :: rs.1, rs.2)

/-- The quantities passed for `product_id` in a sequence of calls. -/
def quantitiesFor (product_id : Nat) (calls : List AddCall) : List Int :=
  (calls.filter (fun c => c.product.product_id == product_id)).map (fun c => c.quantity)

/-! ## sw.js -/

/-- The result of awaiting a call: the value it resolved with, or a rejection
(which `await` turns into a thrown exception). -/
inductive Awaited (α : Type) where
  | value (a : α)
  | thrown
  deriving DecidableEq, Repr

/-- What the page and the service worker do that is visible from outside, in the
order in which they do it. -/
inductive Effect where
  | consoleLog (message : String)
  | consoleError (message : String)
  /-- The call `registration.sync.register(tag)`. -/
  | syncRegister (tag : String)
  /-- The call `sendToServer(operation)`: one delivery attempt. -/
  | sendToServer (operation : SyncOperation)
  /-- The call `clearPendingOperations()`. -/
  | clearPendingOperations
  /-- The call `self.registration.showNotification(title, ...)`. -/
  | showNotification (title : String)
  /-- The call `client.postMessage` of a message with this `type` to a page. -/
  | postMessage (type : String)
  deriving DecidableEq, Repr

/-- The three helpers `syncCart` calls (sw.js lines 113-126). `syncCart` is
embedded over any behaviour of them; `swHelpers` below is what sw.js defines.
`getPendingCartOperations` resolves with a list or with null/undefined
(`none`); `sendToServer` resolves or rejects; `clearPendingOperations` resolves
with the database it leaves, or rejects. -/
structure FlushHelpers where
  getPendingCartOperations : Db → Awaited (Option (List SyncOperation))
  sendToServer : SyncOperation → Awaited Unit
  clearPendingOperations : Db → Awaited Db

/-- The placeholders of sw.js: `getPendingCartOperations` returns `[]`,
`clearPendingOperations` does nothing, `sendToServer` only logs. -/
def swHelpers : FlushHelpers :=
  { getPendingCartOperations := fun _ => Awaited.value (some [])
    sendToServer := fun _ => Awaited.value ()
    clearPendingOperations := fun db => Awaited.value db }

/-- Helpers that do what the comments of sw.js say a real app would do, with
the functions of indexedDB.js: read the sync-operations store, clear it, and
deliver an operation with the outcome `delivers` gives (false: rejection). -/
def storeHelpers (delivers : SyncOperation → Bool) : FlushHelpers :=
  { getPendingCartOperations := fun db =>
      match getPendingSyncOperations true db with
      | some operations => Awaited.value (some operations)
      | none => Awaited.thrown
    sendToServer := fun operation =>
      if delivers operation then Awaited.value () else Awaited.thrown
    clearPendingOperations := fun db => Awaited.value (clearSyncOperations true db).2 }

/-- The loop `for (const operation of pendingOperations) await sendToServer(operation)`
(sw.js lines 95-97): the delivery attempts made, and whether the loop ran to its
end (false: a delivery rejected and the exception left the loop). -/
def sendEach (sendToServer : SyncOperation → Awaited Unit) :
    List SyncOperation → List Effect × Bool
  | [] => ([], true)
  | operation :: rest =>
    match sendToServer operation with
    | Awaited.value _ =>
      let r := sendEach sendToServer rest
      (Effect.sendToServer operation :: r.1, r.2)
    | Awaited.thrown => ([Effect.sendToServer operation], false)

/-- The function `syncCart` of sw.js (lines 88-111): what it does, in order, and
the database it leaves. -/
def syncCart (helpers : FlushHelpers) (db : Db) : List Effect × Db :=
  match helpers.getPendingCartOperations db with
  | Awaited.thrown => ([Effect.consoleError "Sync failed:"], db)
  | Awaited.value none => ([], db)
  | Awaited.value (some pendingOperations) =>
    if pendingOperations.length > 0 then
      let sent := sendEach helpers.sendToServer pendingOperations
      if sent.2 then
        match helpers.clearPendingOperations db with
        | Awaited.value db' =>
          (sent.1 ++ [Effect.clearPendingOperations, Effect.showNotification "Cart Synchronized"],
            db')
        | Awaited.thrown =>
          (sent.1 ++ [Effect.clearPendingOperations, Effect.consoleError "Sync failed:"], db)
      else (sent.1 ++ [Effect.consoleError "Sync failed:"], db)
    else ([], db)

/-- The `sync` event handler of sw.js (lines 81-85). -/
def onSync (tag : String) (helpers : FlushHelpers) (db : Db) : List Effect × Db :=
  if tag = "sync-cart" then syncCart helpers db else ([], db)

/-- A cached or fetched response; only its identity matters here. -/
structure Response where
  body : String
  deriving DecidableEq, Repr

/-- One cache of the Cache API: request URL and stored response, oldest first. -/
abbrev Cache := List (String × Response)

/-- The origin's cache storage: cache name and cache, in creation order. -/
abbrev CacheStorage := List (String × Cache)

/-- The constant `CACHE_NAME` of sw.js (line 1). -/
def CACHE_NAME : String := "pwa-commerce-v1"

/-- `cache.match(request)`: the stored response of the request, if any. -/
def cacheMatch (url : String) (cache : Cache) : Option Response :=
  (cache.find? (fun e => e.1 == url)).map (fun e => e.2)

/-- `cache.put(request, response)`: replaces what was stored for the request. -/
def cachePut (url : String) (response : Response) (cache : Cache) : Cache :=
  cache.filter (fun e => e.1 != url) ++ [(url, response)]

/-- `caches.open(name)`, reading: the cache of that name, empty if it is new. -/
def cachesGet (name : String) (caches : CacheStorage) : Cache :=
  ((caches.find? (fun c => c.1 == name)).map (fun c => c.2)).getD []

/-- `caches.open(name)`, writing: the storage with the cache of that name set,
created at the end if it did not exist. -/
def cachesSet (name : String) (cache : Cache) (caches : CacheStorage) : CacheStorage :=
  if caches.any (fun c => c.1 == name) then
    caches.map (fun c => if c.1 == name then (name, cache) else c)
  else caches ++ [(name, cache)]

/-- `caches.match(request)`: the first match over all caches. -/
def cachesMatch (url : String) (caches : CacheStorage) : Option Response :=
  caches.findSome? (fun c => cacheMatch url c.2)

/-- `haystack.includes(needle)` on the characters of two strings. -/
def includes (needle : List Char) : List Char → Bool
  | [] => needle.isEmpty
  | c :: rest => needle.isPrefixOf (c :: rest) || includes needle rest

/-- What the `fetch` handler does with the event. -/
inductive FetchOutcome where
  /-- The handler returned without `respondWith`. -/
  | notHandled
  /-- The handler called `respondWith` with a promise for this response
  (`none`: the promise resolved with `undefined`). -/
  | respondWith (response : Option Response)
  deriving DecidableEq, Repr

/-- The `fetch` event handler of sw.js (lines 38-78). `origin` is
`self.location.origin`, `url` is `event.request.url`, and `network` is what
`fetch(event.request)` gives: a response, or `none` when it rejects. -/
def onFetch (origin url : String) (network : Option Response) (caches : CacheStorage) :
    FetchOutcome × CacheStorage :=
  if !(origin.data.isPrefixOf url.data) then (FetchOutcome.notHandled, caches)
  else if includes "parts.json".data url.data then
    let cache := cachesGet CACHE_NAME caches
    match network with
    | some response =>
      (FetchOutcome.respondWith (some response),
        cachesSet CACHE_NAME (cachePut url response cache) caches)
    | none => (FetchOutcome.respondWith (cacheMatch url cache), cachesSet CACHE_NAME cache caches)
  else
    match network with
    | some response =>
      (FetchOutcome.respondWith (some response),
        cachesSet CACHE_NAME (cachePut url response (cachesGet CACHE_NAME caches)) caches)
    | none => (FetchOutcome.respondWith (cachesMatch url caches), caches)

/-- `caches.keys()`: the names of the caches, in creation order. -/
def cachesKeys (caches : CacheStorage) : List String :=
  caches.map (fun c => c.1)

/-- `caches.delete(name)`: the storage without the cache of that name. -/
def cachesDelete (name : String) (caches : CacheStorage) : CacheStorage :=
  caches.filter (fun c => c.1 != name)

/-- `array.indexOf(x)` counted from position `i`: the position of the first
element equal to `x`, or -1. -/
def indexOfFrom (x : String) : List String → Int → Int
  | [], _ => -1
  | y :: rest, i => if y = x then i else indexOfFrom x rest (i + 1)

/-- `array.indexOf(x)`. -/
def indexOf (array : List String) (x : String) : Int :=
  indexOfFrom x array 0

/-- The `activate` event handler of sw.js (lines 22-35): for every name that
`caches.keys()` lists and that is not in `cacheWhitelist`, `caches.delete`;
the result is the cache storage once `Promise.all` has resolved. -/
def onActivate (caches : CacheStorage) : CacheStorage :=
  let cacheWhitelist := [CACHE_NAME]
  (cachesKeys caches).foldl
    (fun storage cacheName =>
      if indexOf cacheWhitelist cacheName = -1 then cachesDelete cacheName storage
      else storage)
    caches

/-! ## ano.js -/

/-- What `fetch('/api/cart/add', ...)` gives: a response with its `ok` flag, or a
rejection. -/
inductive Delivery where
  | response (ok : Bool)
  | rejects
  deriving DecidableEq, Repr

/-- What `syncCartItems` does that is visible from outside. -/
inductive ItemEffect (Item : Type) where
  /-- The request `fetch('/api/cart/add', ...)` with the item as its body. -/
  | fetch (item : Item)
  /-- The call `removePendingCartItem(item)`. -/
  | removePendingCartItem (item : Item)
  | consoleError (message : String)
  deriving DecidableEq, Repr

/-- The loop of `syncCartItems` (ano.js lines 83-96): what it does, and whether it
ran to its end (false: an exception left the loop). -/
def syncEach {Item : Type} (fetch : Item → Delivery)
    (removePendingCartItem : Item → Awaited Unit) : List Item → List (ItemEffect Item) × Bool
  | [] => ([], true)
  | item :: rest =>
    match fetch item with
    | Delivery.rejects => ([ItemEffect.fetch item], false)
    | Delivery.response ok =>
      if ok then
        match removePendingCartItem item with
        | Awaited.value _ =>
          let r := syncEach fetch removePendingCartItem rest
          (ItemEffect.fetch item :: ItemEffect.removePendingCartItem item :: r.1, r.2)
        | Awaited.thrown =>
          ([ItemEffect.fetch item, ItemEffect.removePendingCartItem item], false)
      else
        let r := syncEach fetch removePendingCartItem rest
        (ItemEffect.fetch item :: r.1, r.2)

/-- The function `syncCartItems` of ano.js (lines 78-100), over any behaviour of
`fetch` and of its two helpers (ano.js defines `getPendingCartItems` as `[]`
and `removePendingCartItem` as a function that does nothing). -/
def syncCartItems {Item : Type} (getPendingCartItems : Awaited (List Item))
    (fetch : Item → Delivery) (removePendingCartItem : Item → Awaited Unit) :
    List (ItemEffect Item) :=
  match getPendingCartItems with
  | Awaited.thrown => [ItemEffect.consoleError "Cart sync failed:"]
  | Awaited.value pendingItems =>
    let r := syncEach fetch removePendingCartItem pendingItems
    if r.2 then r.1 else r.1 ++ [ItemEffect.consoleError "Cart sync failed:"]

/-! ## serviceWorkerRegistration.js -/

/-- What the browser offers to `requestBackgroundSync`. -/
structure SyncPlatform where
  /-- The test `'serviceWorker' in navigator`. -/
  serviceWorkerInNavigator : Bool
  /-- The test `'SyncManager' in window`. -/
  syncManagerInWindow : Bool
  /-- The promise `navigator.serviceWorker.ready` resolves (it never rejects). -/
  readyResolves : Bool
  /-- The promise `registration.sync.register('sync-cart')` resolves. -/
  registerResolves : Bool
  deriving DecidableEq, Repr

/-- The function `requestBackgroundSync` of serviceWorkerRegistration.js
(lines 105-120): what it does, in order. -/
def requestBackgroundSync (platform : SyncPlatform) : List Effect :=
  if platform.serviceWorkerInNavigator && platform.syncManagerInWindow then
    if platform.readyResolves then
      if platform.registerResolves then
        [Effect.syncRegister "sync-cart", Effect.consoleLog "Background sync registered!"]
      else
        [Effect.syncRegister "sync-cart",
          Effect.consoleError "Background sync registration failed:"]
    else []
  else [Effect.consoleLog "Background sync not supported"]

/-- An effect that is part of a flush of the pending operations: a delivery
attempt or the clearing of the store. -/
def Effect.isFlush : Effect → Bool
  | Effect.sendToServer _ => true
  | Effect.clearPendingOperations => true
  | _ => false

/-- The platform cannot schedule deferred execution: an API is missing, or the
registration rejects. -/
def SyncPlatform.cannotSchedule (platform : SyncPlatform) : Bool :=
  !platform.serviceWorkerInNavigator || !platform.syncManagerInWindow ||
    (platform.readyResolves && !platform.registerResolves)

/-- The characters the HTML standard calls ASCII whitespace: tab, line feed,
form feed, carriage return and space. -/
def isAsciiWhitespace (c : Char) : Bool :=
  c.toNat = 9 || c.toNat = 10 || c.toNat = 12 || c.toNat = 13 || c.toNat = 32

/-- The position of a character in the base64 alphabet `A-Z a-z 0-9 + /`. -/
def base64Index (c : Char) : Option Nat :=
  if 65 ≤ c.toNat ∧ c.toNat ≤ 90 then some (c.toNat - 65)
  else if 97 ≤ c.toNat ∧ c.toNat ≤ 122 then some (c.toNat - 71)
  else if 48 ≤ c.toNat ∧ c.toNat ≤ 57 then some (c.toNat + 4)
  else if c.toNat = 43 then some 62
  else if c.toNat = 47 then some 63
  else none

/-- Step 2 of the forgiving-base64 decode of the HTML standard: when the length
is a multiple of 4, one or two `=` at the end are removed. -/
def stripPadding (data : List Char) : List Char :=
  if data.length % 4 = 0 then
    if data.getLast? = some '=' then
      if data.dropLast.getLast? = some '=' then data.dropLast.dropLast else data.dropLast
    else data
  else data

/-- Steps 5 and 6 of the forgiving-base64 decode: every character appends its six
bits to `buffer` (which holds `bits` bits); 24 bits give three bytes; at the end
12 bits give one byte and 18 bits give two, the last 4 or 2 bits being dropped. -/
def atobDecode : List Char → Nat → Nat → List Nat
  | [], buffer, bits =>
    if bits = 12 then [buffer / 16]
    else if bits = 18 then [buffer / 1024, buffer / 4 % 256]
    else []
  | c :: rest, buffer, bits =>
    if bits + 6 = 24 then
      (buffer * 64 + (base64Index c).getD 0) / 65536 ::
        (buffer * 64 + (base64Index c).getD 0) / 256 % 256 ::
        (buffer * 64 + (base64Index c).getD 0) % 256 :: atobDecode rest 0 0
    else atobDecode rest (buffer * 64 + (base64Index c).getD 0) (bits + 6)

/-- The function `window.atob` of the browser, as the HTML standard defines it
(forgiving-base64 decode): the char codes of the string it returns, or `none`
when it throws `InvalidCharacterError`. -/
def atob (data : List Char) : Option (List Nat) :=
  let data := stripPadding (data.filter (fun c => !isAsciiWhitespace c))
  if data.length % 4 = 1 then none
  else if data.all (fun c => (base64Index c).isSome) then some (atobDecode data 0 0)
  else none

/-- `text.replace(/old/g, new)` for a pattern that is one character. -/
def replaceAll (old new : Char) (text : List Char) : List Char :=
  text.map (fun c => if c = old then new else c)

/-- The constant `padding` of `urlBase64ToUint8Array` (line 90). `length` counts
characters, which for ASCII text is what JavaScript counts (UTF-16 code units);
any other text makes `atob` throw whatever the padding is. -/
def urlBase64ToUint8Array.padding (base64String : String) : List Char :=
  List.replicate ((4 - base64String.length % 4) % 4) '='

/-- The constant `base64` of `urlBase64ToUint8Array` (lines 91-93). -/
def urlBase64ToUint8Array.base64 (base64String : String) : List Char :=
  replaceAll '_' '/'
    (replaceAll '-' '+' (base64String.data ++ urlBase64ToUint8Array.padding base64String))

/-- The function `urlBase64ToUint8Array` of serviceWorkerRegistration.js
(lines 89-102): the elements of the `Uint8Array` it returns (every char code is
stored modulo 256), or `none` when `atob` throws. -/
def urlBase64ToUint8Array (base64String : String) : Option (List Nat) :=
  match atob (urlBase64ToUint8Array.base64 base64String) with
  | some rawData => some (rawData.map (fun code => code % 256))
  | none => none

/-- The key that `setupPushNotifications` passes to `urlBase64ToUint8Array`
(line 77). -/
def vapidPublicKey : String :=
  "BEl62iUYgUivxIkv69yViEuiBIa-Ib9-SkvMeAtA3LFgDzkrxZJjSgSnfckjBJuBkr3qBUYIHBQFLXYp5Nksh8U"

/-- The URL-safe base64 alphabet: `A-Z`, `a-z`, `0-9`, `-` and `_`. -/
def isUrlSafeChar (c : Char) : Bool :=
  (65 ≤ c.toNat && c.toNat ≤ 90) || (97 ≤ c.toNat && c.toNat ≤ 122) ||
    (48 ≤ c.toNat && c.toNat ≤ 57) || c = '-' || c = '_'

/-- The position of a character in the URL-safe alphabet of RFC 4648, section 5:
as in base64, with `-` at 62 and `_` at 63. -/
def base64urlIndex (c : Char) : Option Nat :=
  if 65 ≤ c.toNat ∧ c.toNat ≤ 90 then some (c.toNat - 65)
  else if 97 ≤ c.toNat ∧ c.toNat ≤ 122 then some (c.toNat - 71)
  else if 48 ≤ c.toNat ∧ c.toNat ≤ 57 then some (c.toNat + 4)
  else if c = '-' then some 62
  else if c = '_' then some 63
  else none

/-- The reference decoder the byte array is compared with: base64url decoding of
text without padding as RFC 4648 describes it, group by group. Four characters
give three bytes; a last group of two characters gives one byte and a last group
of three gives two, the unused low bits being ignored; a last group of one
character is not an encoding. -/
def base64urlDecode : List Char → Option (List Nat)
  | [] => some []
  | [_] => none
  | [a, b] =>
    match base64urlIndex a, base64urlIndex b with
    | some x, some y => some [x * 4 + y / 16]
    | _, _ => none
  | [a, b, c] =>
    match base64urlIndex a, base64urlIndex b, base64urlIndex c with
    | some x, some y, some z => some [x * 4 + y / 16, y % 16 * 16 + z / 4]
    | _, _, _ => none
  | a :: b :: c :: d :: rest =>
    match base64urlIndex a, base64urlIndex b, base64urlIndex c, base64urlIndex d,
      base64urlDecode rest with
    | some x, some y, some z, some w, some bytes =>
      some ((x * 4 + y / 16) :: (y % 16 * 16 + z / 4) :: (z % 4 * 64 + w) :: bytes)
    | _, _, _, _, _ => none

/-! ## Commerce.jsx -/

/-- The events `online` and `offline` of `window`. -/
inductive ConnectivityEvent where
  | online
  | offline
  deriving DecidableEq, Repr

/-- The state of the component `Ecommerce` that the sync trigger and the message
listener use: the React states `isOnline`, `notification` and `cartItems`, and
the dependency `[isOnline]` the effect of line 45 last ran with (`none` before
the component is mounted). -/
structure Ecommerce where
  isOnline : Bool
  notification : Option String
  cartItems : List CartItem
  syncDeps : Option Bool
  deriving DecidableEq, Repr

/-- The effect of lines 45-49 as React runs it after a render: only when
`[isOnline]` differs from what it was at the last run, and then it calls
`requestBackgroundSync` if `isOnline`. The result counts the calls. -/
def syncEffect (c : Ecommerce) : Nat × Ecommerce :=
  if c.syncDeps = some c.isOnline then (0, c)
  else ((if c.isOnline then 1 else 0), { c with syncDeps := some c.isOnline })

/-- Mounting the component: `useState(navigator.onLine)` and the first run of the
effect. -/
def mount (navigatorOnLine : Bool) : Nat × Ecommerce :=
  syncEffect { isOnline := navigatorOnLine, notification := none, cartItems := [],
               syncDeps := none }

/-- The handler `handleOnline` (line 13). -/
def handleOnline (c : Ecommerce) : Ecommerce := { c with isOnline := true }

/-- The handler `handleOffline` (line 14). -/
def handleOffline (c : Ecommerce) : Ecommerce := { c with isOnline := false }

/-- One connectivity event: its handler, then the render and its effects. The
result counts the calls of `requestBackgroundSync`. -/
def dispatch (e : ConnectivityEvent) (c : Ecommerce) : Nat × Ecommerce :=
  match e with
  | ConnectivityEvent.online => syncEffect (handleOnline c)
  | ConnectivityEvent.offline => syncEffect (handleOffline c)

/-- A sequence of connectivity events, each handled to its end before the next:
the state of the component after them. -/
def dispatchAll : List ConnectivityEvent → Ecommerce → Ecommerce
  | [], c => c
  | e :: rest, c => dispatchAll rest (dispatch e c).2

/-- The `message` listener of lines 34-39, with `loadCartItems()` reading the
cart store: `data` is the `type` of `event.data` (`none`: no data or no type). -/
def onMessage (data : Option String) (db : Db) (c : Ecommerce) : Ecommerce :=
  if data = some "SYNC_COMPLETE" then
    { c with notification := some "Cart synchronized with server!", cartItems := db.cart }
  else c

/-- The page receives the messages a service worker run posted, in order. -/
def deliverMessages (db : Db) : List Effect → Ecommerce → Ecommerce
  | [], c => c
  | Effect.postMessage type :: rest, c => deliverMessages db rest (onMessage (some type) db c)
  | _ :: rest, c => deliverMessages db rest c

/-- The function `cacheProducts` of Commerce.jsx (lines 63-68): stores the
product list under `/products` in the cache `ecommerce-cache`, if the Cache API
is there. -/
def cacheProducts (cachesInWindow : Bool) (data : String) (caches : CacheStorage) :
    CacheStorage :=
  if cachesInWindow then
    cachesSet "ecommerce-cache"
      (cachePut "/products" { body := data } (cachesGet "ecommerce-cache" caches)) caches
  else caches

/-- The function `loadCachedProducts` of Commerce.jsx (lines 70-79): the product
list it finds under `/products` in the cache `ecommerce-cache`, if any, and the
cache storage it leaves (`caches.open` creates the cache when it is missing). -/
def loadCachedProducts (cachesInWindow : Bool) (caches : CacheStorage) :
    Option String × CacheStorage :=
  if cachesInWindow then
    ((cacheMatch "/products" (cachesGet "ecommerce-cache" caches)).map (fun r => r.body),
      cachesSet "ecommerce-cache" (cachesGet "ecommerce-cache" caches) caches)
  else (none, caches)

/-! ## Invariants and sample data -/

/-- A character after the two replacements of lines 92-93: `-` becomes `+`, then
`_` becomes `/`. -/
def base64CharOf (c : Char) : Char :=
  if (if c = '-' then '+' else c) = '_' then '/' else if c = '-' then '+' else c

/-- The quantity of the line item stored under `key`, if there is one. -/
def lookupQuantity (key : Nat) (store : List CartItem) : Option JsNumber :=
  (cartGet key store).map (fun r => r.quantity)

/-- The quantity a line item holds after the quantities `added` have been added
one after the other, starting from what is stored (`none`: no line item yet):
the first addition creates the item, every later one is a `+=`. -/
def accumulate : Option JsNumber → List Int → Option JsNumber
  | stored, [] => stored
  | none, quantity :: rest => accumulate (some (JsNumber.finite quantity)) rest
  | some n, quantity :: rest => accumulate (some (jsAdd n quantity)) rest

/-- The line item that `addToCart` writes for `product` and `quantity` when the
store holds `existing` under the product's key. -/
def writtenItem (product : Product) (quantity : Int) (now : Nat) :
    Option CartItem → CartItem
  | some existingItem => { existingItem with quantity := jsAdd existingItem.quantity quantity }
  | none =>
    { id := product.product_id, product_id := product.product_id, name := product.name,
      price := product.price, quantity := JsNumber.finite quantity, timestamp := now }

/-- The invariant of the `cart` store: records are in strictly increasing key
order, and every record carries its key as `product_id`. -/
def CartWF (store : List CartItem) : Prop :=
  (store.map (fun r => r.id)).Pairwise (fun a b => a < b) ∧ ∀ r ∈ store, r.product_id = r.id

/-- The invariant of the `sync-operations` store: records are in strictly
increasing key order, and the key generator is above every key in the store. -/
def SyncWF (db : Db) : Prop :=
  (db.sync.map (fun r => r.id)).Pairwise (fun a b => a < b) ∧ ∀ r ∈ db.sync, r.id < db.syncKeyGen

/-- The operations a sequence of calls queues when the key generator stands at
`key`: one per call, in call order. -/
def operationsOf : Nat → List AddCall → List SyncOperation
  | _, [] => []
  | key, c :: rest =>
    { id := key, type := "add-to-cart", product_id := c.product.product_id,
      quantity := c.quantity, timestamp := c.env.syncNow } :: operationsOf (key + 1) rest

/-- A platform on which every step of `addToCart` goes well. -/
def envOk : AddEnv :=
  { openCart := true, openSync := true, syncTxOk := true, cartTxOk := true,
    cartTxLate := true, cartNow := 100, syncNow := 101 }

/-- A sample product. -/
def productA : Product := { product_id := 7, name := "A", price := 10 }

/-- Another sample product. -/
def productB : Product := { product_id := 3, name := "B", price := 25 }

/-- Three calls in a row: `addToCart(A, 2)`, `addToCart(B, 1)`, `addToCart(A, 3)`. -/
def sampleCalls : List AddCall :=
  [⟨productA, 2, envOk⟩, ⟨productB, 1, envOk⟩, ⟨productA, 3, envOk⟩]

/-- A platform on which the `openDB()` of `addSyncOperation` fails and
everything else goes well. -/
def envSyncFails : AddEnv := { envOk with openSync := false }

/-- A queued operation with the given key. -/
def sampleOp (id : Nat) : SyncOperation :=
  { id := id, type := "add-to-cart", product_id := 7, quantity := 1, timestamp := 100 + id }

/-- A database with four operations pending. -/
def queuedDb : Db :=
  { cart := [], sync := [sampleOp 1, sampleOp 2, sampleOp 3, sampleOp 4], syncKeyGen := 5 }

/-- A page that is mounted and shows nothing. -/
def samplePage : Ecommerce := (mount false).2

/-- A browser without the Background Sync API. -/
def noSyncManager : SyncPlatform :=
  { serviceWorkerInNavigator := true, syncManagerInWindow := false, readyResolves := true,
    registerResolves := true }

/-- A cache storage that holds an entry for the product data. -/
def sampleCaches : CacheStorage :=
  [("pwa-commerce-v1", [("https://shop.example/parts.json", { body := "cached" })])]

/-- A server that answers item 2 with a non-success status and every other item
with success. -/
def sampleFetch (item : Nat) : Delivery :=
  if item = 2 then Delivery.response false else Delivery.response true

/-- The placeholder `removePendingCartItem` of ano.js: it resolves. -/
def sampleRemove (_ : Nat) : Awaited Unit := Awaited.value ()

/-- Two calls in a row: `addToCart(A, 2^53)`, then `addToCart(A, 1)`. -/
def roundingCalls : List AddCall :=
  [⟨productA, 9007199254740992, envOk⟩, ⟨productA, 1, envOk⟩]

/-- A platform on which the `cart` transaction fails and everything else goes
well. -/
def envCartFails : AddEnv := { envOk with cartTxOk := false }

/-! ## Theorems -/

/-! ### The cart store -/

theorem cartGet_id {key : Nat} {store : List CartItem} {r : CartItem}
    (h : cartGet key store = some r) : r.id = key := by
  have := List.find?_some h
  simpa using this

theorem cartGet_cartPut (key : Nat) (item : CartItem) (store : List CartItem) :
    cartGet key (cartPut item store) = if item.id = key then some item else cartGet key store := by
  unfold cartGet
  induction store with
  | nil => by_cases hk : item.id = key <;> simp [cartPut, hk]
  | cons r rest ih =>
    unfold cartPut
    by_cases hk : item.id = key
    · simp only [hk, if_true] at ih ⊢
      split_ifs with h1 h2
      · simp [List.find?_cons, hk]
      · simp [List.find?_cons, hk]
      · have hr : ¬ r.id = key := fun h => h2 h.symm
        simp [List.find?_cons, hr, ih]
    · simp only [hk, if_false] at ih ⊢
      split_ifs with h1 h2
      · simp [List.find?_cons, hk]
      · have hr : ¬ r.id = key := fun h => hk (h2.trans h)
        simp [List.find?_cons, hk, hr]
      · by_cases hr : r.id = key
        · simp [List.find?_cons, hr]
        · simp [List.find?_cons, hr, ih]

theorem mem_cartPut {item r : CartItem} {store : List CartItem}
    (h : r ∈ cartPut item store) : r = item ∨ r ∈ store := by
  induction store with
  | nil => simpa [cartPut] using h
  | cons x rest ih =>
    unfold cartPut at h
    split_ifs at h with h1 h2
    · simp only [List.mem_cons] at h ⊢
      tauto
    · simp only [List.mem_cons] at h ⊢
      tauto
    · simp only [List.mem_cons] at h ⊢
      rcases h with h | h
      · tauto
      · rcases ih h with h | h <;> tauto

theorem cartPut_wf {item : CartItem} {store : List CartItem}
    (hitem : item.product_id = item.id) (h : CartWF store) : CartWF (cartPut item store) := by
  refine ⟨?_, ?_⟩
  · have hs := h.1
    clear h
    induction store with
    | nil => simp [cartPut]
    | cons x rest ih =>
      unfold cartPut
      have hx := List.pairwise_cons.mp hs
      split_ifs with h1 h2
      · simp only [List.map_cons, List.pairwise_cons]
        refine ⟨?_, hx⟩
        intro b hb
        rcases List.mem_cons.mp hb with hb | hb
        · subst hb
          exact h1
        · exact lt_trans h1 (hx.1 b hb)
      · simp only [List.map_cons, List.pairwise_cons]
        refine ⟨?_, hx.2⟩
        intro b hb
        exact h2 ▸ hx.1 b hb
      · simp only [List.map_cons, List.pairwise_cons]
        refine ⟨?_, ih hx.2⟩
        intro b hb
        obtain ⟨r, hr, rfl⟩ := List.mem_map.mp hb
        rcases mem_cartPut hr with hr | hr
        · subst hr
          exact lt_of_le_of_ne (not_lt.mp h1) (fun h => h2 h.symm)
        · exact hx.1 _ (List.mem_map_of_mem _ hr)
  · intro r hr
    rcases mem_cartPut hr with hr | hr
    · exact hr ▸ hitem
    · exact h.2 r hr

theorem filter_eq_cartGet (key : Nat) {store : List CartItem}
    (h : (store.map (fun r => r.id)).Pairwise (fun a b => a < b)) :
    store.filter (fun r => r.id == key) = (cartGet key store).toList := by
  induction store with
  | nil => simp [cartGet]
  | cons x rest ih =>
    have hx := List.pairwise_cons.mp h
    by_cases hk : x.id = key
    · have hrest : rest.filter (fun r => r.id == key) = [] := by
        rw [List.filter_eq_nil_iff]
        intro r hr
        have hlt : x.id < r.id := hx.1 _ (List.mem_map_of_mem (fun r => r.id) hr)
        have hne : ¬ r.id = key := fun h => by omega
        simp [hne]
      simp [cartGet, hk, hrest]
    · have ih' := ih hx.2
      simp only [cartGet] at ih'
      simp [cartGet, hk, ih']

/-! ### addToCart -/

theorem lookupQuantity_cartPut (key : Nat) (item : CartItem) (store : List CartItem) :
    lookupQuantity key (cartPut item store) =
      if item.id = key then some item.quantity else lookupQuantity key store := by
  unfold lookupQuantity
  rw [cartGet_cartPut]
  split_ifs <;> rfl

theorem toDouble_safe {x : Int} (h : x.natAbs < 2 ^ 53) : toDouble x = JsNumber.finite x := by
  have h0 : ulpExponent x.natAbs 972 0 = some 0 := by
    have h972 : (972 : Nat) = 971 + 1 := rfl
    rw [h972, ulpExponent]
    simp only [pow_zero, Nat.div_one, h, if_true]
  unfold toDouble
  rw [h0]
  have h971 : ¬ ((0 : Nat) = 971 ∧ 2 ^ 53 ≤ x.natAbs) := fun hc => absurd hc.1 (by decide)
  by_cases hx : x < 0
  · have hcast : -((x.natAbs : Nat) : Int) = x := by omega
    simp only [pow_zero, Nat.div_one, Nat.mul_one, Nat.mod_one, Nat.mul_zero, Nat.zero_lt_one,
      if_true, h971, if_false, hx, hcast]
  · have hcast : ((x.natAbs : Nat) : Int) = x := by omega
    simp only [pow_zero, Nat.div_one, Nat.mul_one, Nat.mod_one, Nat.mul_zero, Nat.zero_lt_one,
      if_true, h971, if_false, hx, hcast]

/-- Below `2 ^ 53` the sum of JavaScript is the exact sum. -/
theorem jsAdd_safe {n b : Int} (h : (n + b).natAbs < 2 ^ 53) :
    jsAdd (JsNumber.finite n) b = JsNumber.finite (n + b) := by
  simp only [jsAdd, toDouble_safe h]

theorem accumulate_some (n : JsNumber) (added : List Int) :
    ∃ m, accumulate (some n) added = some m := by
  induction added generalizing n with
  | nil => exact ⟨n, rfl⟩
  | cons q rest ih => exact ih (jsAdd n q)

theorem accumulate_isSome (added : List Int) :
    (accumulate none added).isSome = true ↔ added ≠ [] := by
  cases added with
  | nil => simp [accumulate]
  | cons q rest =>
    obtain ⟨m, hm⟩ := accumulate_some (JsNumber.finite q) rest
    simp [accumulate, hm]

theorem accumulate_append (stored : Option JsNumber) (first second : List Int) :
    accumulate stored (first ++ second) = accumulate (accumulate stored first) second := by
  induction first generalizing stored with
  | nil => cases stored <;> rfl
  | cons q rest ih =>
    cases stored with
    | none =>
      show accumulate (some (JsNumber.finite q)) (rest ++ second) = _
      exact ih _
    | some n =>
      show accumulate (some (jsAdd n q)) (rest ++ second) = _
      exact ih _

theorem accumulate_finite (a : Int) (added : List Int)
    (h : a.natAbs + (added.map Int.natAbs).sum < 2 ^ 53) :
    accumulate (some (JsNumber.finite a)) added = some (JsNumber.finite (a + added.sum)) := by
  induction added generalizing a with
  | nil => simp [accumulate]
  | cons q rest ih =>
    simp only [List.map_cons, List.sum_cons] at h
    have hle : (a + q).natAbs ≤ a.natAbs + q.natAbs := Int.natAbs_add_le a q
    have hstep : jsAdd (JsNumber.finite a) q = JsNumber.finite (a + q) :=
      jsAdd_safe (by omega)
    simp only [accumulate, hstep, List.sum_cons]
    rw [ih (a + q) (by omega), add_assoc]

/-- While the absolute values of the quantities add up to less than `2 ^ 53`, the
accumulated quantity is their exact sum. -/
theorem accumulate_none_safe (added : List Int)
    (h : (added.map Int.natAbs).sum < 2 ^ 53) :
    accumulate none added =
      if added = [] then none else some (JsNumber.finite added.sum) := by
  cases added with
  | nil => rfl
  | cons q rest =>
    simp only [List.map_cons, List.sum_cons] at h
    simp only [accumulate, List.sum_cons]
    rw [accumulate_finite q rest h]
    simp

theorem cartOnSuccess_written (product : Product) (quantity : Int) (now : Nat)
    (store : List CartItem) :
    cartOnSuccess product quantity now store =
      some (cartPut (writtenItem product quantity now (cartGet product.product_id store))
        store) := by
  unfold cartOnSuccess
  cases hg : cartGet product.product_id store with
  | some existingItem => rfl
  | none =>
    have hadd : ∀ item : CartItem, item.id = product.product_id →
        cartAdd item store = some (cartPut item store) := by
      intro item hitem
      simp [cartAdd, hitem, hg]
    exact hadd _ rfl

theorem writtenItem_id (product : Product) (quantity : Int) (now : Nat)
    (store : List CartItem) :
    (writtenItem product quantity now (cartGet product.product_id store)).id =
      product.product_id := by
  cases hg : cartGet product.product_id store with
  | some existingItem => exact (cartGet_id hg : existingItem.id = product.product_id)
  | none => rfl

theorem writtenItem_quantity (product : Product) (quantity : Int) (now : Nat)
    (store : List CartItem) :
    some (writtenItem product quantity now (cartGet product.product_id store)).quantity =
      accumulate (lookupQuantity product.product_id store) [quantity] := by
  unfold lookupQuantity
  cases hg : cartGet product.product_id store with
  | some existingItem => rfl
  | none => rfl

/-- The handler of the `cart` transaction never fails: it writes one record,
stored under the product's key, whose quantity is the quantity added when there
was no line item, and otherwise the old quantity plus the quantity added, as
JavaScript adds them. -/
theorem cartOnSuccess_eq (product : Product) (quantity : Int) (now : Nat)
    {store : List CartItem} (h : CartWF store) :
    ∃ item, cartOnSuccess product quantity now store = some (cartPut item store) ∧
      item.id = product.product_id ∧ item.product_id = item.id ∧
      some item.quantity = accumulate (lookupQuantity product.product_id store) [quantity] := by
  refine ⟨_, cartOnSuccess_written product quantity now store,
    writtenItem_id product quantity now store, ?_, writtenItem_quantity product quantity now store⟩
  cases hg : cartGet product.product_id store with
  | some existingItem => exact h.2 existingItem (List.mem_of_find?_eq_some hg)
  | none => rfl

theorem addToCart_cart (product : Product) (quantity : Int) (env : AddEnv) (db : Db) :
    (addToCart product quantity env db).2.cart = db.cart ∨
      (addToCart product quantity env db).2.cart =
        (cartTransaction product quantity env db.cart).2 := by
  unfold addToCart
  by_cases h : env.openCart = true
  · right
    simp only [h, Bool.not_true, Bool.false_eq_true, if_false]
    split
    · split_ifs <;> rfl
    · rfl
  · left
    simp [h]

theorem cartTransaction_wf (product : Product) (quantity : Int) (env : AddEnv)
    {store : List CartItem} (h : CartWF store) :
    CartWF (cartTransaction product quantity env store).2 := by
  obtain ⟨item, hitem, _, hpid, _⟩ := cartOnSuccess_eq product quantity env.cartNow h
  unfold cartTransaction
  rw [hitem]
  by_cases hok : env.cartTxOk = true
  · simpa [hok] using cartPut_wf hpid h
  · simpa [hok] using h

theorem addToCart_wf (product : Product) (quantity : Int) (env : AddEnv) {db : Db}
    (h : CartWF db.cart) : CartWF (addToCart product quantity env db).2.cart := by
  rcases addToCart_cart product quantity env db with h' | h'
  · rw [h']
    exact h
  · rw [h']
    exact cartTransaction_wf product quantity env h

/-- What a resolved `addToCart` implies about what the platform decided. -/
theorem addToCart_resolved {product : Product} {quantity : Int} {env : AddEnv} {db : Db}
    (h : (addToCart product quantity env db).1 = Settled.resolved) :
    env.openCart = true ∧ env.openSync = true ∧ env.syncTxOk = true ∧
      env.cartTxLate = true ∧ (cartTransaction product quantity env db.cart).1 = true := by
  unfold addToCart addSyncOperation at h
  by_cases h1 : env.openCart = true <;> by_cases h2 : env.openSync = true <;>
    by_cases h3 : env.syncTxOk = true <;> by_cases h4 : env.cartTxLate = true <;>
    by_cases h5 : (cartTransaction product quantity env db.cart).1 = true <;>
    simp [h1, h2, h3, h4, h5] at h ⊢

/-- A resolved `addToCart` has committed both writes: the line item, and one
operation under the key the generator held. -/
theorem addToCart_resolved_db {product : Product} {quantity : Int} {env : AddEnv} {db : Db}
    (h : (addToCart product quantity env db).1 = Settled.resolved) :
    (addToCart product quantity env db).2 =
      { cart := (cartTransaction product quantity env db.cart).2
        sync := syncInsert
          { id := db.syncKeyGen, type := "add-to-cart", product_id := product.product_id,
            quantity := quantity, timestamp := env.syncNow } db.sync
        syncKeyGen := db.syncKeyGen + 1 } := by
  obtain ⟨h1, h2, h3, h4, h5⟩ := addToCart_resolved h
  simp [addToCart, addSyncOperation, h1, h2, h3, h4, h5]

theorem addToCart_resolved_lookup {product : Product} {quantity : Int} {env : AddEnv} {db : Db}
    (hwf : CartWF db.cart) (h : (addToCart product quantity env db).1 = Settled.resolved)
    (key : Nat) :
    lookupQuantity key (addToCart product quantity env db).2.cart =
      if product.product_id = key then accumulate (lookupQuantity key db.cart) [quantity]
      else lookupQuantity key db.cart := by
  rw [addToCart_resolved_db h]
  obtain ⟨_, _, _, _, h5⟩ := addToCart_resolved h
  obtain ⟨item, hitem, hid, _, hq⟩ := cartOnSuccess_eq product quantity env.cartNow hwf
  have hok : env.cartTxOk = true := by
    unfold cartTransaction at h5
    rw [hitem] at h5
    by_cases hok : env.cartTxOk = true
    · exact hok
    · simp [hok] at h5
  have hcart : (cartTransaction product quantity env db.cart).2 = cartPut item db.cart := by
    unfold cartTransaction
    rw [hitem]
    simp [hok]
  simp only [hcart, lookupQuantity_cartPut, hid, hq]
  split_ifs with hk
  · rw [hk]
  · rfl

theorem addToCartAll_wf (calls : List AddCall) {db : Db} (h : CartWF db.cart) :
    CartWF (addToCartAll calls db).2.cart := by
  induction calls generalizing db with
  | nil => exact h
  | cons c rest ih => exact ih (addToCart_wf c.product c.quantity c.env h)

/-- After calls that all resolved, the quantity stored under a key is what the
quantities passed for that key accumulate to, one `+=` after the other. -/
theorem addToCartAll_lookup (calls : List AddCall) {db : Db} (hwf : CartWF db.cart)
    (h : ∀ o ∈ (addToCartAll calls db).1, o = Settled.resolved) (key : Nat) :
    lookupQuantity key (addToCartAll calls db).2.cart =
      accumulate (lookupQuantity key db.cart) (quantitiesFor key calls) := by
  induction calls generalizing db with
  | nil => cases hl : lookupQuantity key db.cart <;> simp [addToCartAll, quantitiesFor, accumulate, hl]
  | cons c rest ih =>
    have hc : (addToCart c.product c.quantity c.env db).1 = Settled.resolved :=
      h _ (by simp [addToCartAll])
    have hrest : ∀ o ∈ (addToCartAll rest (addToCart c.product c.quantity c.env db).2).1,
        o = Settled.resolved := fun o ho => h o (by simp [addToCartAll, ho])
    have ih' := ih (addToCart_wf c.product c.quantity c.env hwf) hrest
    have hstep := addToCart_resolved_lookup hwf hc key
    simp only [addToCartAll]
    rw [ih', hstep]
    by_cases hk : c.product.product_id = key
    · have hq : quantitiesFor key (c :: rest) = [c.quantity] ++ quantitiesFor key rest := by
        simp [quantitiesFor, hk]
      rw [hq, accumulate_append]
      simp [hk]
    · have hq : quantitiesFor key (c :: rest) = quantitiesFor key rest := by
        simp [quantitiesFor, hk]
      rw [hq]
      simp [hk]

/-- Claim C1, as stated, fails: on a fresh database, `addToCart(A, 2^53)` and
then `addToCart(A, 1)` both resolve, the quantities passed add up to `2^53 + 1`,
and the line item that `getCartItems()` returns holds `2^53`. -/
theorem addToCart_accumulation_rounds :
    (∀ o ∈ (addToCartAll roundingCalls Db.fresh).1, o = Settled.resolved) ∧
      (quantitiesFor 7 roundingCalls).sum = 9007199254740993 ∧
      (getCartItems true (addToCartAll roundingCalls Db.fresh).2).map
          (fun items =>
            (items.filter (fun r => r.product_id == 7)).map (fun r => r.quantity)) =
        some [JsNumber.finite 9007199254740992] := by
  decide

/-- Claim C1, amended. After any sequence of `addToCart` calls that each
resolved, started on an empty cart store, `getCartItems()` returns, for every
product id, no line item if the id was never added and otherwise exactly one
line item; and if the absolute values of the quantities passed for that id add
up to less than `2 ^ 53`, the quantity of that item is their sum. -/
theorem addToCart_accumulation (calls : List AddCall) (db : Db) (hempty : db.cart = [])
    (h : ∀ o ∈ (addToCartAll calls db).1, o = Settled.resolved) (product_id : Nat) :
    ∃ items, getCartItems true (addToCartAll calls db).2 = some items ∧
      (items.filter (fun r => r.product_id == product_id)).length =
        (if quantitiesFor product_id calls = [] then 0 else 1) ∧
      (((quantitiesFor product_id calls).map Int.natAbs).sum < 2 ^ 53 →
        (items.filter (fun r => r.product_id == product_id)).map (fun r => r.quantity) =
          if quantitiesFor product_id calls = [] then []
          else [JsNumber.finite (quantitiesFor product_id calls).sum]) := by
  have hwf0 : CartWF db.cart := by simp [hempty, CartWF]
  have hwf := addToCartAll_wf calls hwf0
  have hl := addToCartAll_lookup calls hwf0 h product_id
  have h0 : lookupQuantity product_id db.cart = none := by
    simp [hempty, lookupQuantity, cartGet]
  rw [h0] at hl
  have hfilter : (addToCartAll calls db).2.cart.filter (fun r => r.product_id == product_id) =
      (cartGet product_id (addToCartAll calls db).2.cart).toList := by
    rw [← filter_eq_cartGet product_id hwf.1]
    apply List.filter_congr
    intro r hr
    rw [hwf.2 r hr]
  have hmap : ((addToCartAll calls db).2.cart.filter
      (fun r => r.product_id == product_id)).map (fun r => r.quantity) =
      (accumulate none (quantitiesFor product_id calls)).toList := by
    rw [hfilter, ← hl]
    unfold lookupQuantity
    cases cartGet product_id (addToCartAll calls db).2.cart <;> rfl
  refine ⟨(addToCartAll calls db).2.cart, by simp [getCartItems], ?_, ?_⟩
  · have hlen := congrArg List.length hmap
    rw [List.length_map] at hlen
    rw [hlen]
    by_cases hq : quantitiesFor product_id calls = []
    · simp [hq, accumulate]
    · obtain ⟨m, hm⟩ := Option.isSome_iff_exists.mp ((accumulate_isSome _).mpr hq)
      simp [hq, hm]
  · intro hbound
    rw [hmap, accumulate_none_safe _ hbound]
    by_cases hq : quantitiesFor product_id calls = [] <;> simp [hq]

theorem addToCart_accumulation_witness :
    (Db.fresh.cart = [] ∧
      (∀ o ∈ (addToCartAll sampleCalls Db.fresh).1, o = Settled.resolved) ∧
      ((quantitiesFor 7 sampleCalls).map Int.natAbs).sum < 2 ^ 53) ∧
    ∃ items, getCartItems true (addToCartAll sampleCalls Db.fresh).2 = some items ∧
      (items.filter (fun r => r.product_id == 7)).length = 1 ∧
      (items.filter (fun r => r.product_id == 7)).map (fun r => r.quantity) =
        [JsNumber.finite 5] := by
  obtain ⟨items, hitems, hlen, hsum⟩ :=
    addToCart_accumulation sampleCalls Db.fresh rfl (by decide) 7
  have hbound : ((quantitiesFor 7 sampleCalls).map Int.natAbs).sum < 2 ^ 53 := by decide
  exact ⟨⟨rfl, by decide, hbound⟩, items, hitems, hlen, hsum hbound⟩

/-! ### The sync-operations store -/

theorem syncInsert_eq_append (op : SyncOperation) (store : List SyncOperation)
    (h : ∀ r ∈ store, r.id < op.id) : syncInsert op store = store ++ [op] := by
  induction store with
  | nil => rfl
  | cons r rest ih =>
    have hr : r.id < op.id := h r (List.mem_cons_self _ _)
    have h1 : ¬ op.id < r.id := by omega
    have h2 : ¬ op.id = r.id := by omega
    simp [syncInsert, h1, h2, ih (fun x hx => h x (List.mem_cons_of_mem _ hx))]

theorem syncWF_append {db : Db} (h : SyncWF db) (op : SyncOperation)
    (hop : op.id = db.syncKeyGen) (cart : List CartItem) :
    SyncWF { cart := cart, sync := db.sync ++ [op], syncKeyGen := db.syncKeyGen + 1 } := by
  refine ⟨?_, ?_⟩
  · simp only [List.map_append, List.map_cons, List.map_nil]
    rw [List.pairwise_append]
    refine ⟨h.1, List.pairwise_singleton _ _, ?_⟩
    intro a ha b hb
    obtain ⟨r, hr, rfl⟩ := List.mem_map.mp ha
    have := h.2 r hr
    simp only [List.mem_singleton] at hb
    omega
  · intro r hr
    simp only [List.mem_append, List.mem_singleton] at hr
    rcases hr with hr | hr
    · have := h.2 r hr
      show r.id < db.syncKeyGen + 1
      omega
    · subst hr
      show r.id < db.syncKeyGen + 1
      omega

theorem addToCartAll_sync (calls : List AddCall) {db : Db} (hwf : SyncWF db)
    (h : ∀ o ∈ (addToCartAll calls db).1, o = Settled.resolved) :
    (addToCartAll calls db).2.sync = db.sync ++ operationsOf db.syncKeyGen calls ∧
      SyncWF (addToCartAll calls db).2 := by
  induction calls generalizing db with
  | nil => simpa [addToCartAll, operationsOf] using hwf
  | cons c rest ih =>
    have hc : (addToCart c.product c.quantity c.env db).1 = Settled.resolved :=
      h _ (by simp [addToCartAll])
    have hrest : ∀ o ∈ (addToCartAll rest (addToCart c.product c.quantity c.env db).2).1,
        o = Settled.resolved := fun o ho => h o (by simp [addToCartAll, ho])
    have hdb := addToCart_resolved_db hc
    rw [syncInsert_eq_append _ _ (fun r hr => hwf.2 r hr)] at hdb
    have hwf1 : SyncWF (addToCart c.product c.quantity c.env db).2 := by
      rw [hdb]
      exact syncWF_append hwf _ rfl _
    have ih' := ih hwf1 hrest
    simp only [addToCartAll]
    refine ⟨?_, ih'.2⟩
    rw [ih'.1, hdb]
    simp [operationsOf]

theorem operationsOf_payload (key : Nat) (calls : List AddCall) :
    (operationsOf key calls).map (fun o => (o.type, o.product_id, o.quantity)) =
      calls.map (fun c => ("add-to-cart", c.product.product_id, c.quantity)) := by
  induction calls generalizing key with
  | nil => rfl
  | cons c rest ih => simp [operationsOf, ih]

/-- Claim C2. After any sequence of `addToCart` calls that each resolved,
`getPendingSyncOperations()` returns the operations that were pending before
followed by exactly one operation per call, in call order, of type
`add-to-cart` and carrying that call's `product_id` and `quantity`; the ids of
the returned list are strictly increasing. -/
theorem addToCart_appends_one_operation_per_call (calls : List AddCall) (db : Db)
    (hwf : SyncWF db) (h : ∀ o ∈ (addToCartAll calls db).1, o = Settled.resolved) :
    ∃ ops appended, getPendingSyncOperations true (addToCartAll calls db).2 = some ops ∧
      ops = db.sync ++ appended ∧
      appended.map (fun o => (o.type, o.product_id, o.quantity)) =
        calls.map (fun c => ("add-to-cart", c.product.product_id, c.quantity)) ∧
      (ops.map (fun o => o.id)).Pairwise (fun a b => a < b) := by
  have hs := addToCartAll_sync calls hwf h
  refine ⟨(addToCartAll calls db).2.sync, operationsOf db.syncKeyGen calls, ?_, hs.1,
    operationsOf_payload _ _, hs.2.1⟩
  simp [getPendingSyncOperations]

theorem addToCart_appends_one_operation_per_call_witness :
    (SyncWF Db.fresh ∧
      ∀ o ∈ (addToCartAll sampleCalls
        Db.fresh).1, o = Settled.resolved) ∧
    ∃ ops appended, getPendingSyncOperations true
        (addToCartAll sampleCalls
          Db.fresh).2 = some ops ∧
      ops = Db.fresh.sync ++ appended ∧
      appended.map (fun o => (o.type, o.product_id, o.quantity)) =
        sampleCalls.map
          (fun c => ("add-to-cart", c.product.product_id, c.quantity)) ∧
      (ops.map (fun o => o.id)).Pairwise (fun a b => a < b) :=
  ⟨⟨by simp [SyncWF, Db.fresh], by decide⟩,
    addToCart_appends_one_operation_per_call
      sampleCalls Db.fresh
      (by simp [SyncWF, Db.fresh]) (by decide)⟩

/-! ### addToCart and failure -/

/-- Claim C3, as stated, fails: on a fresh database, with the `openDB()` of
`addSyncOperation` failing, `addToCart(A, 2)` rejects and the sync-operations
store is unchanged, but the cart store has gained the line item. -/
theorem addToCart_rejected_cart_changed :
    (addToCart productA 2 envSyncFails Db.fresh).1 = Settled.rejected ∧
      (addToCart productA 2 envSyncFails Db.fresh).2.sync = Db.fresh.sync ∧
      (addToCart productA 2 envSyncFails Db.fresh).2.cart =
        [{ id := 7, product_id := 7, name := "A", price := 10, quantity := JsNumber.finite 2,
           timestamp := 100 }] ∧
      (addToCart productA 2 envSyncFails Db.fresh).2.cart ≠ Db.fresh.cart := by
  refine ⟨rfl, rfl, rfl, ?_⟩
  intro h
  exact absurd h (by simp [addToCart, cartTransaction, cartOnSuccess, cartAdd, cartGet, cartPut,
    addSyncOperation, envSyncFails, envOk, productA, Db.fresh])

theorem cartTransaction_failed {product : Product} {quantity : Int} {env : AddEnv}
    {store : List CartItem} (h : (cartTransaction product quantity env store).1 = false) :
    (cartTransaction product quantity env store).2 = store := by
  unfold cartTransaction at h ⊢
  split
  · split_ifs with hok
    · simp_all
    · rfl
  · rfl

theorem mem_syncInsert (op : SyncOperation) (store : List SyncOperation) :
    op ∈ syncInsert op store := by
  induction store with
  | nil => simp [syncInsert]
  | cons r rest ih =>
    unfold syncInsert
    split_ifs
    · simp
    · simp
    · exact List.mem_cons_of_mem _ ih

theorem cartTransaction_committed (product : Product) (quantity : Int) (env : AddEnv)
    (store : List CartItem) (hok : env.cartTxOk = true) :
    (cartTransaction product quantity env store).2 =
      cartPut (writtenItem product quantity env.cartNow (cartGet product.product_id store))
        store := by
  unfold cartTransaction
  rw [cartOnSuccess_written]
  simp [hok]

theorem cartTransaction_aborted (product : Product) (quantity : Int) (env : AddEnv)
    (store : List CartItem) (hok : env.cartTxOk = false) :
    (cartTransaction product quantity env store) = (false, store) := by
  unfold cartTransaction
  rw [cartOnSuccess_written]
  simp [hok]

/-- Claim C3, amended. The two stores are written in two transactions. When
`addToCart` rejects: if its own `openDB()` failed, the database is unchanged; if
`addSyncOperation` failed, the sync-operations store and its key generator are
unchanged, and the cart transaction still runs: when it commits, the store
holds under the product's key the line item with the quantity added to it, or
the new line item if there was none, and every other key is as before; when it
does not commit, the cart store is unchanged. If `addSyncOperation` succeeded,
the rejection comes from the cart transaction, the cart store is unchanged, and
the operation stays appended. -/
theorem addToCart_rejected_stores (product : Product) (quantity : Int) (env : AddEnv) (db : Db)
    (h : (addToCart product quantity env db).1 = Settled.rejected) :
    (env.openCart = false → (addToCart product quantity env db).2 = db) ∧
    (env.openCart = true → (env.openSync = false ∨ env.syncTxOk = false) →
      (addToCart product quantity env db).2.sync = db.sync ∧
      (addToCart product quantity env db).2.syncKeyGen = db.syncKeyGen ∧
      (env.cartTxOk = true →
        (match cartGet product.product_id db.cart with
          | some existingItem =>
            cartGet product.product_id (addToCart product quantity env db).2.cart =
              some { existingItem with quantity := jsAdd existingItem.quantity quantity }
          | none =>
            cartGet product.product_id (addToCart product quantity env db).2.cart =
              some { id := product.product_id, product_id := product.product_id,
                     name := product.name, price := product.price,
                     quantity := JsNumber.finite quantity, timestamp := env.cartNow }) ∧
        ∀ key, key ≠ product.product_id →
          cartGet key (addToCart product quantity env db).2.cart = cartGet key db.cart) ∧
      (env.cartTxOk = false → (addToCart product quantity env db).2.cart = db.cart)) ∧
    (env.openCart = true → env.openSync = true → env.syncTxOk = true →
      env.cartTxOk = false ∧
      (addToCart product quantity env db).2.cart = db.cart ∧
      (addToCart product quantity env db).2.sync =
        syncInsert
          { id := db.syncKeyGen, type := "add-to-cart", product_id := product.product_id,
            quantity := quantity, timestamp := env.syncNow } db.sync ∧
      ({ id := db.syncKeyGen, type := "add-to-cart", product_id := product.product_id,
         quantity := quantity, timestamp := env.syncNow } : SyncOperation) ∈
        (addToCart product quantity env db).2.sync) := by
  refine ⟨?_, ?_, ?_⟩
  · intro h1
    simp [addToCart, h1]
  · intro h1 h2
    have hdb : (addToCart product quantity env db).2 =
        { db with cart := (cartTransaction product quantity env db.cart).2 } := by
      rcases h2 with h2 | h2
      · simp [addToCart, addSyncOperation, h1, h2]
      · by_cases h3 : env.openSync = true <;> simp [addToCart, addSyncOperation, h1, h2, h3]
    rw [hdb]
    refine ⟨rfl, rfl, ?_, ?_⟩
    · intro hok
      have hcart := cartTransaction_committed product quantity env db.cart hok
      have hid := writtenItem_id product quantity env.cartNow db.cart
      refine ⟨?_, ?_⟩
      · have hget : cartGet product.product_id
            (cartTransaction product quantity env db.cart).2 =
            some (writtenItem product quantity env.cartNow
              (cartGet product.product_id db.cart)) := by
          rw [hcart, cartGet_cartPut, if_pos hid]
        cases hg : cartGet product.product_id db.cart with
        | some existingItem =>
          rw [hg] at hget
          exact hget
        | none =>
          rw [hg] at hget
          exact hget
      · intro key hkey
        show cartGet key (cartTransaction product quantity env db.cart).2 = _
        rw [hcart, cartGet_cartPut, if_neg]
        rw [hid]
        exact fun hc => hkey hc.symm
    · intro hok
      show (cartTransaction product quantity env db.cart).2 = _
      rw [cartTransaction_aborted product quantity env db.cart hok]
  · intro h1 h2 h3
    have hok : env.cartTxOk = false := by
      by_cases hok : env.cartTxOk = true
      · have htx : (cartTransaction product quantity env db.cart).1 = true := by
          unfold cartTransaction
          rw [cartOnSuccess_written]
          simp [hok]
        by_cases h4 : env.cartTxLate = true <;>
          simp [addToCart, addSyncOperation, h1, h2, h3, h4, htx] at h
      · simpa using hok
    have htx := cartTransaction_aborted product quantity env db.cart hok
    have hdb : (addToCart product quantity env db).2 =
        { cart := db.cart
          sync := syncInsert
            { id := db.syncKeyGen, type := "add-to-cart", product_id := product.product_id,
              quantity := quantity, timestamp := env.syncNow } db.sync
          syncKeyGen := db.syncKeyGen + 1 } := by
      by_cases h4 : env.cartTxLate = true <;>
        simp [addToCart, addSyncOperation, h1, h2, h3, h4, htx]
    rw [hdb]
    exact ⟨hok, rfl, rfl, mem_syncInsert _ _⟩

/-- The other way round: with the `cart` transaction failing after
`addSyncOperation` succeeded, `addToCart(A, 2)` rejects, the cart store is
unchanged and the operation is in the sync-operations store. -/
theorem addToCart_rejected_operation_stays :
    (addToCart productA 2 envCartFails Db.fresh).1 = Settled.rejected ∧
      (addToCart productA 2 envCartFails Db.fresh).2.cart = [] ∧
      (addToCart productA 2 envCartFails Db.fresh).2.sync =
        [{ id := 1, type := "add-to-cart", product_id := 7, quantity := 2, timestamp := 101 }] := by
  decide

theorem addToCart_rejected_stores_witness :
    (addToCart productA 2 envSyncFails Db.fresh).1 = Settled.rejected ∧
    ((envSyncFails.openCart = false → (addToCart productA 2 envSyncFails Db.fresh).2 = Db.fresh) ∧
    (envSyncFails.openCart = true →
      (envSyncFails.openSync = false ∨ envSyncFails.syncTxOk = false) →
      (addToCart productA 2 envSyncFails Db.fresh).2.sync = Db.fresh.sync ∧
      (addToCart productA 2 envSyncFails Db.fresh).2.syncKeyGen = Db.fresh.syncKeyGen ∧
      (envSyncFails.cartTxOk = true →
        (match cartGet productA.product_id Db.fresh.cart with
          | some existingItem =>
            cartGet productA.product_id (addToCart productA 2 envSyncFails Db.fresh).2.cart =
              some { existingItem with quantity := jsAdd existingItem.quantity 2 }
          | none =>
            cartGet productA.product_id (addToCart productA 2 envSyncFails Db.fresh).2.cart =
              some { id := productA.product_id, product_id := productA.product_id,
                     name := productA.name, price := productA.price,
                     quantity := JsNumber.finite 2, timestamp := envSyncFails.cartNow }) ∧
        ∀ key, key ≠ productA.product_id →
          cartGet key (addToCart productA 2 envSyncFails Db.fresh).2.cart =
            cartGet key Db.fresh.cart) ∧
      (envSyncFails.cartTxOk = false →
        (addToCart productA 2 envSyncFails Db.fresh).2.cart = Db.fresh.cart)) ∧
    (envSyncFails.openCart = true → envSyncFails.openSync = true →
      envSyncFails.syncTxOk = true →
      envSyncFails.cartTxOk = false ∧
      (addToCart productA 2 envSyncFails Db.fresh).2.cart = Db.fresh.cart ∧
      (addToCart productA 2 envSyncFails Db.fresh).2.sync =
        syncInsert
          { id := Db.fresh.syncKeyGen, type := "add-to-cart",
            product_id := productA.product_id, quantity := 2,
            timestamp := envSyncFails.syncNow } Db.fresh.sync ∧
      ({ id := Db.fresh.syncKeyGen, type := "add-to-cart",
         product_id := productA.product_id, quantity := 2,
         timestamp := envSyncFails.syncNow } : SyncOperation) ∈
        (addToCart productA 2 envSyncFails Db.fresh).2.sync)) :=
  ⟨rfl, addToCart_rejected_stores productA 2 envSyncFails Db.fresh rfl⟩

/-! ### syncCart -/

theorem sendEach_all {sendToServer : SyncOperation → Awaited Unit} (ops : List SyncOperation)
    (h : ∀ o ∈ ops, sendToServer o = Awaited.value ()) :
    sendEach sendToServer ops = (ops.map Effect.sendToServer, true) := by
  induction ops with
  | nil => rfl
  | cons o rest ih =>
    have ho := h o (List.mem_cons_self _ _)
    have ih' := ih (fun x hx => h x (List.mem_cons_of_mem _ hx))
    simp [sendEach, ho, ih']

theorem sendEach_failure {sendToServer : SyncOperation → Awaited Unit}
    (before after : List SyncOperation) (failed : SyncOperation)
    (hbefore : ∀ o ∈ before, sendToServer o = Awaited.value ())
    (hfailed : sendToServer failed = Awaited.thrown) :
    sendEach sendToServer (before ++ failed :: after) =
      (before.map Effect.sendToServer ++ [Effect.sendToServer failed], false) := by
  induction before with
  | nil => simp [sendEach, hfailed]
  | cons o rest ih =>
    have ho := hbefore o (List.mem_cons_self _ _)
    have ih' := ih (fun x hx => hbefore x (List.mem_cons_of_mem _ hx))
    simp [sendEach, ho, ih']

theorem syncCart_failure (helpers : FlushHelpers) (db : Db)
    (before after : List SyncOperation) (failed : SyncOperation)
    (hsnapshot : helpers.getPendingCartOperations db =
      Awaited.value (some (before ++ failed :: after)))
    (hbefore : ∀ o ∈ before, helpers.sendToServer o = Awaited.value ())
    (hfailed : helpers.sendToServer failed = Awaited.thrown) :
    syncCart helpers db =
      (before.map Effect.sendToServer ++
        [Effect.sendToServer failed, Effect.consoleError "Sync failed:"], db) := by
  unfold syncCart
  rw [hsnapshot]
  simp [sendEach_failure before after failed hbefore hfailed]

/-- Claim C4. In a `syncCart` run over the snapshot `before ++ failed :: after`
in which the deliveries of `before` succeed and the delivery of `failed`
rejects, the run makes the delivery attempts of `before` and of `failed` and
then only logs the error: no operation of `after` is sent,
`clearPendingOperations` is not invoked, and the database is left as it was, so
that the store still gives the same pending operations in the same order. -/
theorem syncCart_stops_at_failed_delivery (helpers : FlushHelpers) (db : Db)
    (before after : List SyncOperation) (failed : SyncOperation)
    (hsnapshot : helpers.getPendingCartOperations db =
      Awaited.value (some (before ++ failed :: after)))
    (hbefore : ∀ o ∈ before, helpers.sendToServer o = Awaited.value ())
    (hfailed : helpers.sendToServer failed = Awaited.thrown) :
    (syncCart helpers db).1 =
        before.map Effect.sendToServer ++
          [Effect.sendToServer failed, Effect.consoleError "Sync failed:"] ∧
      Effect.clearPendingOperations ∉ (syncCart helpers db).1 ∧
      (syncCart helpers db).2 = db ∧
      helpers.getPendingCartOperations (syncCart helpers db).2 =
        Awaited.value (some (before ++ failed :: after)) := by
  rw [syncCart_failure helpers db before after failed hsnapshot hbefore hfailed]
  refine ⟨rfl, ?_, rfl, hsnapshot⟩
  simp

theorem syncCart_stops_at_failed_delivery_witness :
    ((storeHelpers (fun o => o.id != 2)).getPendingCartOperations queuedDb =
        Awaited.value (some ([sampleOp 1] ++ sampleOp 2 :: [sampleOp 3, sampleOp 4])) ∧
      (∀ o ∈ [sampleOp 1], (storeHelpers (fun o => o.id != 2)).sendToServer o = Awaited.value ()) ∧
      (storeHelpers (fun o => o.id != 2)).sendToServer (sampleOp 2) = Awaited.thrown) ∧
    ((syncCart (storeHelpers (fun o => o.id != 2)) queuedDb).1 =
        [sampleOp 1].map Effect.sendToServer ++
          [Effect.sendToServer (sampleOp 2), Effect.consoleError "Sync failed:"] ∧
      Effect.clearPendingOperations ∉ (syncCart (storeHelpers (fun o => o.id != 2)) queuedDb).1 ∧
      (syncCart (storeHelpers (fun o => o.id != 2)) queuedDb).2 = queuedDb ∧
      (storeHelpers (fun o => o.id != 2)).getPendingCartOperations
          (syncCart (storeHelpers (fun o => o.id != 2)) queuedDb).2 =
        Awaited.value (some ([sampleOp 1] ++ sampleOp 2 :: [sampleOp 3, sampleOp 4]))) :=
  ⟨⟨rfl, by decide, rfl⟩,
    syncCart_stops_at_failed_delivery (storeHelpers (fun o => o.id != 2)) queuedDb
      [sampleOp 1] [sampleOp 3, sampleOp 4] (sampleOp 2) rfl (by decide) rfl⟩

/-- Claim C5, as stated, fails: with four operations pending, the deliveries of
the first two succeeding and the third rejecting, `syncCart` attempts exactly
those three, and the store afterwards still holds all four operations, not the
last two. -/
theorem syncCart_keeps_delivered_operations :
    (syncCart (storeHelpers (fun o => o.id != 3)) queuedDb).1 =
        [Effect.sendToServer (sampleOp 1), Effect.sendToServer (sampleOp 2),
          Effect.sendToServer (sampleOp 3), Effect.consoleError "Sync failed:"] ∧
      getPendingSyncOperations true (syncCart (storeHelpers (fun o => o.id != 3)) queuedDb).2 =
        some [sampleOp 1, sampleOp 2, sampleOp 3, sampleOp 4] ∧
      getPendingSyncOperations true (syncCart (storeHelpers (fun o => o.id != 3)) queuedDb).2 ≠
        some [sampleOp 3, sampleOp 4] := by
  refine ⟨rfl, rfl, ?_⟩
  decide

theorem sendEach_no_clear (sendToServer : SyncOperation → Awaited Unit)
    (ops : List SyncOperation) :
    Effect.clearPendingOperations ∉ (sendEach sendToServer ops).1 := by
  induction ops with
  | nil => simp [sendEach]
  | cons o rest ih =>
    unfold sendEach
    split
    · simp [ih]
    · simp

theorem sendEach_done {sendToServer : SyncOperation → Awaited Unit} {ops : List SyncOperation}
    (h : (sendEach sendToServer ops).2 = true) :
    ∀ o ∈ ops, sendToServer o = Awaited.value () := by
  induction ops with
  | nil => simp
  | cons x rest ih =>
    cases hx : sendToServer x with
    | thrown => simp [sendEach, hx] at h
    | value u =>
      simp only [sendEach, hx] at h
      intro o ho
      rcases List.mem_cons.mp ho with rfl | ho
      · exact hx
      · exact ih h o ho

/-- When `clearPendingOperations` is called. In any run of `syncCart` over a
snapshot `ops`, it is called at most once; it is called exactly when the
snapshot is not empty and every delivery of the run succeeded, and then after
all the deliveries; and the database changes only through that call. -/
theorem syncCart_clears_after_full_run (helpers : FlushHelpers) (db : Db)
    (ops : List SyncOperation)
    (hsnapshot : helpers.getPendingCartOperations db = Awaited.value (some ops)) :
    (syncCart helpers db).1.count Effect.clearPendingOperations ≤ 1 ∧
      (Effect.clearPendingOperations ∈ (syncCart helpers db).1 ↔
        (ops ≠ [] ∧ ∀ o ∈ ops, helpers.sendToServer o = Awaited.value ())) ∧
      ((syncCart helpers db).2 ≠ db →
        Effect.clearPendingOperations ∈ (syncCart helpers db).1 ∧
          helpers.clearPendingOperations db = Awaited.value (syncCart helpers db).2) ∧
      (ops ≠ [] → (∀ o ∈ ops, helpers.sendToServer o = Awaited.value ()) →
        ∀ cleared, helpers.clearPendingOperations db = Awaited.value cleared →
          syncCart helpers db =
            (ops.map Effect.sendToServer ++
              [Effect.clearPendingOperations, Effect.showNotification "Cart Synchronized"],
              cleared)) := by
  have hnc := sendEach_no_clear helpers.sendToServer ops
  have hcount : (sendEach helpers.sendToServer ops).1.count Effect.clearPendingOperations = 0 :=
    List.count_eq_zero.mpr hnc
  by_cases hlen : ops.length > 0
  · have hne : ops ≠ [] := by
      intro h
      rw [h] at hlen
      exact absurd hlen (by decide)
    cases hs : (sendEach helpers.sendToServer ops).2 with
    | false =>
      have hrun : syncCart helpers db =
          ((sendEach helpers.sendToServer ops).1 ++ [Effect.consoleError "Sync failed:"], db) := by
        simp [syncCart, hsnapshot, hlen, hs]
      have hnot : ¬ ∀ o ∈ ops, helpers.sendToServer o = Awaited.value () := by
        intro hall
        rw [sendEach_all ops hall] at hs
        exact Bool.noConfusion hs
      rw [hrun]
      refine ⟨?_, ?_, ?_, ?_⟩
      · simp [List.count_append, hcount]
      · constructor
        · intro hmem
          simp [hnc] at hmem
        · intro hc
          exact absurd hc.2 hnot
      · intro hc
        exact absurd rfl hc
      · intro _ hall
        exact absurd hall hnot
    | true =>
      have hall := sendEach_done hs
      have hsent : (sendEach helpers.sendToServer ops).1 = ops.map Effect.sendToServer := by
        rw [sendEach_all ops hall]
      cases hc : helpers.clearPendingOperations db with
      | value cleared =>
        have hrun : syncCart helpers db =
            (ops.map Effect.sendToServer ++
              [Effect.clearPendingOperations, Effect.showNotification "Cart Synchronized"],
              cleared) := by
          simp [syncCart, hsnapshot, hlen, hs, hc, hsent]
        rw [hrun]
        rw [hsent] at hcount hnc
        refine ⟨?_, ?_, ?_, ?_⟩
        · simp [List.count_append, hcount, List.count_cons]
        · exact ⟨fun _ => ⟨hne, hall⟩, fun _ => by simp⟩
        · intro _
          exact ⟨by simp, rfl⟩
        · intro _ _ cleared' hc'
          cases hc'
          rfl
      | thrown =>
        have hrun : syncCart helpers db =
            (ops.map Effect.sendToServer ++
              [Effect.clearPendingOperations, Effect.consoleError "Sync failed:"], db) := by
          simp [syncCart, hsnapshot, hlen, hs, hc, hsent]
        rw [hrun]
        rw [hsent] at hcount hnc
        refine ⟨?_, ?_, ?_, ?_⟩
        · simp [List.count_append, hcount, List.count_cons]
        · exact ⟨fun _ => ⟨hne, hall⟩, fun _ => by simp⟩
        · intro hne'
          exact absurd rfl hne'
        · intro _ _ cleared' hc'
          cases hc'
  · have hnil : ops = [] := by
      cases ops with
      | nil => rfl
      | cons o rest => exact absurd (Nat.succ_pos _) hlen
    have hrun : syncCart helpers db = ([], db) := by
      simp [syncCart, hsnapshot, hnil]
    rw [hrun]
    refine ⟨by simp, ?_, ?_, ?_⟩
    · constructor
      · intro hmem
        simp at hmem
      · intro hc
        exact absurd hnil hc.1
    · intro hc
      exact absurd rfl hc
    · intro hne
      exact absurd hnil hne

/-- A run in which every delivery succeeds, on the store of four operations:
four deliveries, then the one call of `clearPendingOperations`, then the
notification, and the store is empty. -/
theorem syncCart_full_run_example :
    syncCart (storeHelpers (fun _ => true)) queuedDb =
      ([Effect.sendToServer (sampleOp 1), Effect.sendToServer (sampleOp 2),
        Effect.sendToServer (sampleOp 3), Effect.sendToServer (sampleOp 4),
        Effect.clearPendingOperations, Effect.showNotification "Cart Synchronized"],
        { queuedDb with sync := [] }) := by
  decide

/-- Claim C5, amended. If `syncCart` delivers `o1` and `o2` and the delivery of
`o3` rejects, the run makes those three delivery attempts and logs the error; it
removes nothing: the database is left as it was, and a later run reads the same
pending list `o1, o2, o3, ...` again. `syncCart` removes no operation one by
one: in every run over every snapshot, `clearPendingOperations` is called at
most once, exactly when the snapshot is not empty and every delivery of the run
has succeeded, after the last delivery, and the database changes only through
that call. -/
theorem syncCart_failed_run_removes_nothing (helpers : FlushHelpers) (db : Db)
    (o1 o2 o3 : SyncOperation) (rest : List SyncOperation)
    (hsnapshot : helpers.getPendingCartOperations db =
      Awaited.value (some (o1 :: o2 :: o3 :: rest)))
    (h1 : helpers.sendToServer o1 = Awaited.value ())
    (h2 : helpers.sendToServer o2 = Awaited.value ())
    (h3 : helpers.sendToServer o3 = Awaited.thrown) :
    ((syncCart helpers db).1 =
        [Effect.sendToServer o1, Effect.sendToServer o2, Effect.sendToServer o3,
          Effect.consoleError "Sync failed:"] ∧
      (syncCart helpers db).2 = db ∧
      helpers.getPendingCartOperations (syncCart helpers db).2 =
        Awaited.value (some (o1 :: o2 :: o3 :: rest))) ∧
    (∀ (others : FlushHelpers) (before : Db) (ops : List SyncOperation),
      others.getPendingCartOperations before = Awaited.value (some ops) →
      (syncCart others before).1.count Effect.clearPendingOperations ≤ 1 ∧
      (Effect.clearPendingOperations ∈ (syncCart others before).1 ↔
        (ops ≠ [] ∧ ∀ o ∈ ops, others.sendToServer o = Awaited.value ())) ∧
      ((syncCart others before).2 ≠ before →
        Effect.clearPendingOperations ∈ (syncCart others before).1 ∧
          others.clearPendingOperations before = Awaited.value (syncCart others before).2) ∧
      (ops ≠ [] → (∀ o ∈ ops, others.sendToServer o = Awaited.value ()) →
        ∀ cleared, others.clearPendingOperations before = Awaited.value cleared →
          syncCart others before =
            (ops.map Effect.sendToServer ++
              [Effect.clearPendingOperations, Effect.showNotification "Cart Synchronized"],
              cleared))) := by
  have hbefore : ∀ o ∈ [o1, o2], helpers.sendToServer o = Awaited.value () := by
    intro o ho
    simp only [List.mem_cons, List.mem_singleton, List.mem_nil_iff, or_false] at ho
    rcases ho with rfl | rfl
    · exact h1
    · exact h2
  refine ⟨?_, fun others before ops hops => syncCart_clears_after_full_run others before ops hops⟩
  rw [syncCart_failure helpers db [o1, o2] rest o3 hsnapshot hbefore h3]
  exact ⟨rfl, rfl, hsnapshot⟩

theorem syncCart_failed_run_removes_nothing_witness :
    ((storeHelpers (fun o => o.id != 3)).getPendingCartOperations queuedDb =
        Awaited.value (some (sampleOp 1 :: sampleOp 2 :: sampleOp 3 :: [sampleOp 4])) ∧
      (storeHelpers (fun o => o.id != 3)).sendToServer (sampleOp 1) = Awaited.value () ∧
      (storeHelpers (fun o => o.id != 3)).sendToServer (sampleOp 2) = Awaited.value () ∧
      (storeHelpers (fun o => o.id != 3)).sendToServer (sampleOp 3) = Awaited.thrown) ∧
    (((syncCart (storeHelpers (fun o => o.id != 3)) queuedDb).1 =
        [Effect.sendToServer (sampleOp 1), Effect.sendToServer (sampleOp 2),
          Effect.sendToServer (sampleOp 3), Effect.consoleError "Sync failed:"] ∧
      (syncCart (storeHelpers (fun o => o.id != 3)) queuedDb).2 = queuedDb ∧
      (storeHelpers (fun o => o.id != 3)).getPendingCartOperations
          (syncCart (storeHelpers (fun o => o.id != 3)) queuedDb).2 =
        Awaited.value (some (sampleOp 1 :: sampleOp 2 :: sampleOp 3 :: [sampleOp 4]))) ∧
    (∀ (others : FlushHelpers) (before : Db) (ops : List SyncOperation),
      others.getPendingCartOperations before = Awaited.value (some ops) →
      (syncCart others before).1.count Effect.clearPendingOperations ≤ 1 ∧
      (Effect.clearPendingOperations ∈ (syncCart others before).1 ↔
        (ops ≠ [] ∧ ∀ o ∈ ops, others.sendToServer o = Awaited.value ())) ∧
      ((syncCart others before).2 ≠ before →
        Effect.clearPendingOperations ∈ (syncCart others before).1 ∧
          others.clearPendingOperations before = Awaited.value (syncCart others before).2) ∧
      (ops ≠ [] → (∀ o ∈ ops, others.sendToServer o = Awaited.value ()) →
        ∀ cleared, others.clearPendingOperations before = Awaited.value cleared →
          syncCart others before =
            (ops.map Effect.sendToServer ++
              [Effect.clearPendingOperations, Effect.showNotification "Cart Synchronized"],
              cleared)))) :=
  ⟨⟨rfl, rfl, rfl, rfl⟩,
    syncCart_failed_run_removes_nothing (storeHelpers (fun o => o.id != 3)) queuedDb
      (sampleOp 1) (sampleOp 2) (sampleOp 3) [sampleOp 4] rfl rfl rfl rfl⟩

/-- Claim C6 fails on the code. After `addToCart(B)` has resolved on a fresh
database, one operation is pending; the `sync` event of sw.js then runs
`syncCart` with the placeholders sw.js defines, which delivers nothing, posts no
message, and leaves the operation pending, and the page, given the messages of
the run, shows no notification. -/
theorem syncCart_placeholder_run :
    (addToCart productB 1 envOk Db.fresh).1 = Settled.resolved ∧
      getPendingSyncOperations true (addToCart productB 1 envOk Db.fresh).2 =
        some [{ id := 1, type := "add-to-cart", product_id := 3, quantity := 1,
                timestamp := 101 }] ∧
      (onSync "sync-cart" swHelpers (addToCart productB 1 envOk Db.fresh).2).1 = [] ∧
      getPendingSyncOperations true
          (onSync "sync-cart" swHelpers (addToCart productB 1 envOk Db.fresh).2).2 =
        some [{ id := 1, type := "add-to-cart", product_id := 3, quantity := 1,
                timestamp := 101 }] ∧
      (deliverMessages (addToCart productB 1 envOk Db.fresh).2
          (onSync "sync-cart" swHelpers (addToCart productB 1 envOk Db.fresh).2).1
          samplePage).notification = none := by
  refine ⟨rfl, rfl, ?_, ?_, ?_⟩ <;> simp [onSync, syncCart, swHelpers] <;> rfl

theorem sendEach_effects (sendToServer : SyncOperation → Awaited Unit)
    (ops : List SyncOperation) :
    ∀ e ∈ (sendEach sendToServer ops).1, ∃ o, e = Effect.sendToServer o := by
  induction ops with
  | nil => simp [sendEach]
  | cons o rest ih =>
    intro e he
    unfold sendEach at he
    split at he
    · simp only [List.mem_cons] at he
      rcases he with he | he
      · exact ⟨o, he⟩
      · exact ih e he
    · simp only [List.mem_singleton] at he
      exact ⟨o, he⟩

/-- No run of `syncCart`, whatever its helpers do, posts a message to a page. -/
theorem syncCart_posts_no_message (helpers : FlushHelpers) (db : Db) (type : String) :
    Effect.postMessage type ∉ (syncCart helpers db).1 := by
  intro hmem
  have hsent : ∀ ops, Effect.postMessage type ∉ (sendEach helpers.sendToServer ops).1 := by
    intro ops h
    obtain ⟨o, ho⟩ := sendEach_effects _ ops _ h
    cases ho
  unfold syncCart at hmem
  cases hp : helpers.getPendingCartOperations db with
  | thrown => simp [hp] at hmem
  | value pending =>
    cases pending with
    | none => simp [hp] at hmem
    | some ops =>
      have hs := hsent ops
      by_cases hlen : ops.length > 0 <;>
        cases hsend : (sendEach helpers.sendToServer ops).2 <;>
        cases hclear : helpers.clearPendingOperations db <;>
        simp [hp, hlen, hsend, hclear, hs] at hmem

/-! ### The sync trigger -/

theorem syncEffect_deps (c : Ecommerce) :
    (syncEffect c).2.syncDeps = some (syncEffect c).2.isOnline ∧
      (syncEffect c).2.isOnline = c.isOnline := by
  by_cases h : c.syncDeps = some c.isOnline <;> simp [syncEffect, h]

theorem dispatch_deps (e : ConnectivityEvent) (c : Ecommerce) :
    (dispatch e c).2.syncDeps = some (dispatch e c).2.isOnline := by
  cases e <;> exact (syncEffect_deps _).1

theorem dispatchAll_deps (events : List ConnectivityEvent) {c : Ecommerce}
    (h : c.syncDeps = some c.isOnline) :
    (dispatchAll events c).syncDeps = some (dispatchAll events c).isOnline := by
  induction events generalizing c with
  | nil => exact h
  | cons e rest ih => exact ih (dispatch_deps e c)

theorem mount_deps (navigatorOnLine : Bool) :
    (mount navigatorOnLine).2.syncDeps = some (mount navigatorOnLine).2.isOnline :=
  (syncEffect_deps _).1

theorem dispatch_calls (e : ConnectivityEvent) {c : Ecommerce}
    (h : c.syncDeps = some c.isOnline) :
    (dispatch e c).1 = (if e = ConnectivityEvent.online ∧ c.isOnline = false then 1 else 0) ∧
      (dispatch e c).2.isOnline = decide (e = ConnectivityEvent.online) := by
  cases e <;> cases hc : c.isOnline <;>
    simp [dispatch, syncEffect, handleOnline, handleOffline, h, hc]

/-- Claim C7. In every state the mounted component reaches through a sequence of
connectivity events, the next event causes exactly one `requestBackgroundSync`
call if it is `online` and `isOnline` is false, and none otherwise (so none for
`online` while `isOnline` is already true); afterwards `isOnline` is true after
`online` and false after `offline`. -/
theorem sync_trigger_calls (navigatorOnLine : Bool) (events : List ConnectivityEvent)
    (e : ConnectivityEvent) :
    (dispatch e (dispatchAll events (mount navigatorOnLine).2)).1 =
        (if e = ConnectivityEvent.online ∧
            (dispatchAll events (mount navigatorOnLine).2).isOnline = false then 1 else 0) ∧
      (dispatch e (dispatchAll events (mount navigatorOnLine).2)).2.isOnline =
        decide (e = ConnectivityEvent.online) :=
  dispatch_calls e (dispatchAll_deps events (mount_deps navigatorOnLine))

/-! ### requestBackgroundSync -/

/-- Claim C8, as stated, fails: in a browser without `SyncManager`,
`requestBackgroundSync` only logs that background sync is not supported; it
attempts no delivery and clears nothing. -/
theorem requestBackgroundSync_no_fallback :
    noSyncManager.cannotSchedule = true ∧
      requestBackgroundSync noSyncManager =
        [Effect.consoleLog "Background sync not supported"] ∧
      (requestBackgroundSync noSyncManager).any Effect.isFlush = false := by
  decide

/-- Claim C8, amended. On a platform that cannot schedule deferred execution,
`requestBackgroundSync` makes no flush attempt: it either only logs
`Background sync not supported`, or makes the registration that rejects and
logs `Background sync registration failed:`. -/
theorem requestBackgroundSync_only_logs (platform : SyncPlatform)
    (h : platform.cannotSchedule = true) :
    (requestBackgroundSync platform = [Effect.consoleLog "Background sync not supported"] ∨
      requestBackgroundSync platform =
        [Effect.syncRegister "sync-cart",
          Effect.consoleError "Background sync registration failed:"]) ∧
      ∀ e ∈ requestBackgroundSync platform, e.isFlush = false := by
  obtain ⟨sw, sm, ready, reg⟩ := platform
  cases sw <;> cases sm <;> cases ready <;> cases reg <;>
    simp [SyncPlatform.cannotSchedule] at h <;>
    simp [requestBackgroundSync, Effect.isFlush]

theorem requestBackgroundSync_only_logs_witness :
    noSyncManager.cannotSchedule = true ∧
    ((requestBackgroundSync noSyncManager =
        [Effect.consoleLog "Background sync not supported"] ∨
      requestBackgroundSync noSyncManager =
        [Effect.syncRegister "sync-cart",
          Effect.consoleError "Background sync registration failed:"]) ∧
      ∀ e ∈ requestBackgroundSync noSyncManager, e.isFlush = false) :=
  ⟨rfl, requestBackgroundSync_only_logs noSyncManager rfl⟩

/-! ### The fetch handler -/

/-- Whenever the network answers a same-origin request whose URL contains
`parts.json`, the handler responds with the network response, whatever the
caches hold. -/
theorem onFetch_parts_json_online (origin url : String) (response : Response)
    (caches : CacheStorage) (horigin : origin.data.isPrefixOf url.data = true)
    (hparts : includes "parts.json".data url.data = true) :
    (onFetch origin url (some response) caches).1 = FetchOutcome.respondWith (some response) := by
  simp [onFetch, horigin, hparts]

/-- Claim C9 fails on the code. For the same-origin request of `parts.json`,
with an entry for the request in the cache and the network answering with a
different response, the `fetch` handler responds with the network response, not
with the cached entry, and stores the network response in the cache. -/
theorem onFetch_parts_json_network_first :
    cacheMatch "https://shop.example/parts.json" (cachesGet CACHE_NAME sampleCaches) =
        some { body := "cached" } ∧
      (onFetch "https://shop.example" "https://shop.example/parts.json"
          (some { body := "fresh" }) sampleCaches).1 =
        FetchOutcome.respondWith (some { body := "fresh" }) ∧
      (onFetch "https://shop.example" "https://shop.example/parts.json"
          (some { body := "fresh" }) sampleCaches).1 ≠
        FetchOutcome.respondWith (some { body := "cached" }) ∧
      (onFetch "https://shop.example" "https://shop.example/parts.json"
          (some { body := "fresh" }) sampleCaches).2 =
        [("pwa-commerce-v1", [("https://shop.example/parts.json", { body := "fresh" })])] := by
  decide

/-! ### syncCartItems -/

theorem syncEach_append {Item : Type} (fetch : Item → Delivery)
    (remove : Item → Awaited Unit) (before rest : List Item)
    (h : (syncEach fetch remove before).2 = true) :
    syncEach fetch remove (before ++ rest) =
      ((syncEach fetch remove before).1 ++ (syncEach fetch remove rest).1,
        (syncEach fetch remove rest).2) := by
  induction before with
  | nil => simp [syncEach]
  | cons x xs ih =>
    simp only [List.cons_append]
    cases hf : fetch x with
    | rejects => simp [syncEach, hf] at h
    | response ok =>
      cases ok with
      | false =>
        simp [syncEach, hf] at h
        simp [syncEach, hf, ih h]
      | true =>
        cases hr : remove x with
        | thrown => simp [syncEach, hf, hr] at h
        | value u =>
          simp [syncEach, hf, hr] at h
          simp [syncEach, hf, hr, ih h]

theorem syncEach_removed {Item : Type} (fetch : Item → Delivery)
    (remove : Item → Awaited Unit) (items : List Item) (x : Item)
    (h : ItemEffect.removePendingCartItem x ∈ (syncEach fetch remove items).1) :
    fetch x = Delivery.response true := by
  induction items with
  | nil => simp [syncEach] at h
  | cons y ys ih =>
    unfold syncEach at h
    cases hf : fetch y with
    | rejects => simp [hf] at h
    | response ok =>
      cases ok with
      | false =>
        simp [hf] at h
        exact ih h
      | true =>
        cases hr : remove y with
        | thrown =>
          simp [hf, hr] at h
          exact h ▸ hf
        | value u =>
          simp [hf, hr] at h
          rcases h with h | h
          · exact h ▸ hf
          · exact ih h

/-- Claim C10, as stated, fails: with items 1, 2, 3 pending and the server
answering item 2 with a non-success status, `syncCartItems` does not remove item
2 but goes on and sends item 3. -/
theorem syncCartItems_skips_ahead :
    sampleFetch 2 = Delivery.response false ∧
      syncCartItems (Awaited.value [1, 2, 3]) sampleFetch sampleRemove =
        [ItemEffect.fetch 1, ItemEffect.removePendingCartItem 1, ItemEffect.fetch 2,
          ItemEffect.fetch 3, ItemEffect.removePendingCartItem 3] := by
  decide

/-- Claim C10, amended. Let the run reach `item` after the items `before`.
If `fetch` rejects for `item`, the run ends there: nothing of `after` is sent.
If the response has a non-success status, the run goes on with `after` as if
`item` had not been there. In every run, `removePendingCartItem` is called only
for items whose response had ok status, so a failed item is never removed. -/
theorem syncCartItems_failed_delivery {Item : Type} (fetch : Item → Delivery)
    (remove : Item → Awaited Unit) (before after : List Item) (item : Item)
    (hbefore : (syncEach fetch remove before).2 = true) :
    (fetch item = Delivery.rejects →
      syncCartItems (Awaited.value (before ++ item :: after)) fetch remove =
        (syncEach fetch remove before).1 ++
          [ItemEffect.fetch item, ItemEffect.consoleError "Cart sync failed:"]) ∧
    (fetch item = Delivery.response false →
      syncCartItems (Awaited.value (before ++ item :: after)) fetch remove =
        (syncEach fetch remove before).1 ++
          ItemEffect.fetch item :: syncCartItems (Awaited.value after) fetch remove) ∧
    (∀ x, ItemEffect.removePendingCartItem x ∈
        syncCartItems (Awaited.value (before ++ item :: after)) fetch remove →
      fetch x = Delivery.response true) := by
  refine ⟨?_, ?_, ?_⟩
  · intro hf
    simp [syncCartItems, syncEach_append fetch remove before _ hbefore, syncEach, hf]
  · intro hf
    simp only [syncCartItems, syncEach_append fetch remove before _ hbefore]
    simp only [syncEach, hf]
    by_cases hafter : (syncEach fetch remove after).2 = true <;> simp [hafter]
  · intro x hx
    apply syncEach_removed fetch remove (before ++ item :: after) x
    unfold syncCartItems at hx
    simp only at hx
    split_ifs at hx
    · exact hx
    · simpa using hx

theorem syncCartItems_failed_delivery_witness :
    (syncEach sampleFetch sampleRemove [1]).2 = true ∧
    ((sampleFetch 2 = Delivery.rejects →
      syncCartItems (Awaited.value ([1] ++ 2 :: [3])) sampleFetch sampleRemove =
        (syncEach sampleFetch sampleRemove [1]).1 ++
          [ItemEffect.fetch 2, ItemEffect.consoleError "Cart sync failed:"]) ∧
    (sampleFetch 2 = Delivery.response false →
      syncCartItems (Awaited.value ([1] ++ 2 :: [3])) sampleFetch sampleRemove =
        (syncEach sampleFetch sampleRemove [1]).1 ++
          ItemEffect.fetch 2 :: syncCartItems (Awaited.value [3]) sampleFetch sampleRemove) ∧
    (∀ x, ItemEffect.removePendingCartItem x ∈
        syncCartItems (Awaited.value ([1] ++ 2 :: [3])) sampleFetch sampleRemove →
      sampleFetch x = Delivery.response true)) :=
  ⟨by decide, syncCartItems_failed_delivery sampleFetch sampleRemove [1] [3] 2 (by decide)⟩

/-! ### The activate handler -/

theorem indexOf_whitelist (cacheName : String) :
    (indexOf [CACHE_NAME] cacheName = -1) ↔ cacheName ≠ CACHE_NAME := by
  unfold indexOf indexOfFrom
  by_cases h : CACHE_NAME = cacheName
  · simp [h]
  · simp [h, indexOfFrom, Ne.symm h]

theorem activate_fold (names : List String) (caches : CacheStorage) :
    names.foldl
        (fun storage cacheName =>
          if indexOf [CACHE_NAME] cacheName = -1 then cachesDelete cacheName storage
          else storage)
        caches =
      caches.filter (fun c => decide (c.1 = CACHE_NAME) || !decide (c.1 ∈ names)) := by
  induction names generalizing caches with
  | nil => simp
  | cons n rest ih =>
    simp only [List.foldl_cons]
    rw [ih]
    by_cases hn : n = CACHE_NAME
    · have hidx : ¬ indexOf [CACHE_NAME] n = -1 := fun h => (indexOf_whitelist n).mp h hn
      simp only [hidx, if_false]
      apply List.filter_congr
      intro c _
      by_cases hc : c.1 = CACHE_NAME
      · simp [hc]
      · have hcn : ¬ c.1 = n := fun h => hc (h.trans hn)
        simp [hc, hcn]
    · have hidx : indexOf [CACHE_NAME] n = -1 := (indexOf_whitelist n).mpr hn
      simp only [hidx, if_true, cachesDelete, List.filter_filter]
      apply List.filter_congr
      intro c _
      by_cases hc : c.1 = CACHE_NAME
      · have hn' : ¬ CACHE_NAME = n := fun h => hn h.symm
        simp [hc, hn']
      · by_cases hcn : c.1 = n
        · simp [hcn, hn]
        · simp [hc, hcn]

theorem mem_cachesKeys_cachesSet (name : String) (cache : Cache) (caches : CacheStorage) :
    name ∈ cachesKeys (cachesSet name cache caches) := by
  unfold cachesSet cachesKeys
  split_ifs with h
  · obtain ⟨c, hc, hname⟩ := List.any_eq_true.mp h
    simp only [List.map_map, List.mem_map]
    have hname' : c.1 = name := by simpa using hname
    exact ⟨c, hc, by simp [hname']⟩
  · simp

/-- The `activate` handler keeps exactly the caches named `CACHE_NAME`. -/
theorem onActivate_eq_filter (caches : CacheStorage) :
    onActivate caches = caches.filter (fun c => c.1 == CACHE_NAME) := by
  unfold onActivate
  simp only []
  rw [activate_fold]
  apply List.filter_congr
  intro c hc
  have hmem : c.1 ∈ cachesKeys caches := List.mem_map_of_mem (fun c => c.1) hc
  by_cases h : c.1 = CACHE_NAME <;> simp [h, hmem]

/-- Claim C11. For every cache storage, after the `activate` handler of sw.js no
cache with a name other than `CACHE_NAME` (`pwa-commerce-v1`) is left; the
caches that are left are those named `CACHE_NAME`, with their content as it was;
and the cache `ecommerce-cache`, which `cacheProducts` of Commerce.jsx has just
written the product list to, is gone, so that `loadCachedProducts` finds no
product list. -/
theorem onActivate_keeps_only_CACHE_NAME (caches : CacheStorage) :
    CACHE_NAME = "pwa-commerce-v1" ∧
      (∀ name, name ≠ CACHE_NAME → name ∉ cachesKeys (onActivate caches)) ∧
      (onActivate caches).find? (fun c => c.1 == CACHE_NAME) =
        caches.find? (fun c => c.1 == CACHE_NAME) ∧
      cachesGet CACHE_NAME (onActivate caches) = cachesGet CACHE_NAME caches ∧
      (∀ data, "ecommerce-cache" ∈ cachesKeys (cacheProducts true data caches) ∧
        "ecommerce-cache" ∉ cachesKeys (onActivate (cacheProducts true data caches)) ∧
        (loadCachedProducts true (onActivate (cacheProducts true data caches))).1 = none) := by
  have hfind : (onActivate caches).find? (fun c => c.1 == CACHE_NAME) =
      caches.find? (fun c => c.1 == CACHE_NAME) := by
    rw [onActivate_eq_filter]
    induction caches with
    | nil => rfl
    | cons c rest ih =>
      by_cases h : (c.1 == CACHE_NAME) = true
      · simp only [List.filter_cons, List.find?_cons, h, if_true]
      · simp only [List.filter_cons, List.find?_cons, h]
        exact ih
  have hgone : ∀ (storage : CacheStorage) (name : String), name ≠ CACHE_NAME →
      name ∉ cachesKeys (onActivate storage) := by
    intro storage name hname hmem
    rw [onActivate_eq_filter] at hmem
    obtain ⟨c, hc, rfl⟩ := List.mem_map.mp hmem
    have := (List.mem_filter.mp hc).2
    exact hname (by simpa using this)
  have hne : ("ecommerce-cache" : String) ≠ CACHE_NAME := by decide
  refine ⟨rfl, hgone caches, hfind, ?_, ?_⟩
  · unfold cachesGet
    rw [hfind]
  · intro data
    refine ⟨?_, hgone _ _ hne, ?_⟩
    · simp only [cacheProducts, if_true]
      exact mem_cachesKeys_cachesSet _ _ _
    · have hnone : (onActivate (cacheProducts true data caches)).find?
          (fun c => c.1 == "ecommerce-cache") = none := by
        rw [List.find?_eq_none]
        intro c hc hname
        have hname' : c.1 = "ecommerce-cache" := by simpa using hname
        exact hgone _ _ hne (hname' ▸ List.mem_map_of_mem (fun c : String × Cache => c.1) hc)
      simp [loadCachedProducts, cachesGet, hnone, cacheMatch]

/-! ### urlBase64ToUint8Array -/

theorem base64CharOf_index {c : Char} (h : isUrlSafeChar c = true) :
    ∃ v, v < 64 ∧ base64urlIndex c = some v ∧ base64Index (base64CharOf c) = some v ∧
      isAsciiWhitespace (base64CharOf c) = false := by
  by_cases h1 : c = '-'
  · subst h1
    exact ⟨62, by decide, by decide, by decide, by decide⟩
  · by_cases h2 : c = '_'
    · subst h2
      exact ⟨63, by decide, by decide, by decide, by decide⟩
    · have htr : base64CharOf c = c := by simp [base64CharOf, h1, h2]
      rw [htr]
      simp only [isUrlSafeChar, h1, h2, decide_False, Bool.or_false, Bool.or_eq_true,
        Bool.and_eq_true, decide_eq_true_eq] at h
      rcases h with (h | h) | h
      · refine ⟨c.toNat - 65, by omega, ?_, ?_, ?_⟩
        · simp [base64urlIndex, h]
        · simp [base64Index, h]
        · simp [isAsciiWhitespace]; omega
      · have h' : ¬ (65 ≤ c.toNat ∧ c.toNat ≤ 90) := by omega
        refine ⟨c.toNat - 71, by omega, ?_, ?_, ?_⟩
        · simp only [base64urlIndex, h', h, if_false]; simp
        · simp only [base64Index, h', h, if_false]; simp
        · simp [isAsciiWhitespace]; omega
      · have h' : ¬ (65 ≤ c.toNat ∧ c.toNat ≤ 90) := by omega
        have h'' : ¬ (97 ≤ c.toNat ∧ c.toNat ≤ 122) := by omega
        refine ⟨c.toNat + 4, by omega, ?_, ?_, ?_⟩
        · simp only [base64urlIndex, h', h'', h, if_false]; simp
        · simp only [base64Index, h', h'', h, if_false]; simp
        · simp [isAsciiWhitespace]; omega

theorem decode_core (n : Nat) : ∀ l : List Char, l.length ≤ n →
    (∀ c ∈ l, isUrlSafeChar c = true) → l.length % 4 ≠ 1 →
    ∃ bytes, base64urlDecode l = some bytes ∧
      atobDecode (l.map base64CharOf) 0 0 = bytes ∧
      bytes.length = 3 * l.length / 4 ∧ ∀ b ∈ bytes, b < 256 := by
  induction n with
  | zero =>
    intro l hl _ _
    have : l = [] := List.length_eq_zero.mp (Nat.le_zero.mp hl)
    subst this
    exact ⟨[], rfl, rfl, rfl, by simp⟩
  | succ n ih =>
    intro l hl halpha hlen
    match l, hl, halpha, hlen with
    | [], _, _, _ => exact ⟨[], rfl, rfl, rfl, by simp⟩
    | [_], _, _, hlen => simp at hlen
    | [a, b], _, halpha, _ =>
      obtain ⟨x, hx, hxa, hxb, _⟩ := base64CharOf_index (halpha a (by simp))
      obtain ⟨y, hy, hya, hyb, _⟩ := base64CharOf_index (halpha b (by simp))
      refine ⟨[x * 4 + y / 16], by simp [base64urlDecode, hxa, hya], ?_, by simp, ?_⟩
      · simp only [List.map_cons, List.map_nil, atobDecode, hxb, hyb, Option.getD_some]
        simp
        omega
      · simp
        omega
    | [a, b, c], _, halpha, _ =>
      obtain ⟨x, hx, hxa, hxb, _⟩ := base64CharOf_index (halpha a (by simp))
      obtain ⟨y, hy, hya, hyb, _⟩ := base64CharOf_index (halpha b (by simp))
      obtain ⟨z, hz, hza, hzb, _⟩ := base64CharOf_index (halpha c (by simp))
      refine ⟨[x * 4 + y / 16, y % 16 * 16 + z / 4], by simp [base64urlDecode, hxa, hya, hza],
        ?_, by simp, ?_⟩
      · simp only [List.map_cons, List.map_nil, atobDecode, hxb, hyb, hzb, Option.getD_some]
        simp
        omega
      · simp
        omega
    | a :: b :: c :: d :: rest, hl, halpha, hlen =>
      obtain ⟨x, hx, hxa, hxb, _⟩ := base64CharOf_index (halpha a (by simp))
      obtain ⟨y, hy, hya, hyb, _⟩ := base64CharOf_index (halpha b (by simp))
      obtain ⟨z, hz, hza, hzb, _⟩ := base64CharOf_index (halpha c (by simp))
      obtain ⟨w, hw, hwa, hwb, _⟩ := base64CharOf_index (halpha d (by simp))
      have hrl : rest.length ≤ n := by simp at hl; omega
      have hrlen : rest.length % 4 ≠ 1 := by simp at hlen; omega
      obtain ⟨bytes, hb1, hb2, hb3, hb4⟩ :=
        ih rest hrl (fun c hc => halpha c (by simp [hc])) hrlen
      refine ⟨(x * 4 + y / 16) :: (y % 16 * 16 + z / 4) :: (z % 4 * 64 + w) :: bytes,
        by simp [base64urlDecode, hxa, hya, hza, hwa, hb1], ?_, ?_, ?_⟩
      · simp only [List.map_cons, atobDecode, hxb, hyb, hzb, hwb, Option.getD_some, hb2]
        simp
        omega
      · simp [hb3]
        omega
      · intro v hv
        simp only [List.mem_cons] at hv
        rcases hv with hv | hv | hv | hv
        · omega
        · omega
        · omega
        · exact hb4 v hv

theorem base64_eq (s : String) :
    urlBase64ToUint8Array.base64 s =
      s.data.map base64CharOf ++ List.replicate ((4 - s.length % 4) % 4) '=' := by
  have hfun : ∀ c : Char,
      (if (if c = '-' then '+' else c) = '_' then '/' else if c = '-' then '+' else c) =
        base64CharOf c := fun c => rfl
  have heq : base64CharOf '=' = '=' := by decide
  simp [urlBase64ToUint8Array.base64, urlBase64ToUint8Array.padding, replaceAll, List.map_append,
    List.map_replicate, Function.comp_def, hfun, heq]

theorem base64CharOf_ne (c : Char) : base64CharOf c ≠ '-' ∧ base64CharOf c ≠ '_' := by
  unfold base64CharOf
  by_cases h1 : c = '-'
  · subst h1
    decide
  · by_cases h2 : c = '_'
    · subst h2
      decide
    · simp [h1, h2]

theorem stripPadding_padded (t : List Char) (k : Nat) (hk : k ≤ 2)
    (hlen : (t.length + k) % 4 = 0) (ht : ∀ c ∈ t, c ≠ '=') :
    stripPadding (t ++ List.replicate k '=') = t := by
  have hlast : t.getLast? ≠ some '=' := by
    intro h
    exact ht _ (List.mem_of_getLast?_eq_some h) rfl
  unfold stripPadding
  match k, hk with
  | 0, _ =>
    simp only [List.replicate_zero, List.append_nil]
    simp [hlast]
  | 1, _ =>
    have h1 : t ++ List.replicate 1 '=' = t ++ ['='] := rfl
    rw [h1]
    simp [List.length_append, hlen, List.dropLast_concat, hlast]
  | 2, _ =>
    have h2 : t ++ List.replicate 2 '=' = (t ++ ['=']) ++ ['='] := by simp [List.replicate]
    rw [h2]
    have hlen' : ((t ++ ['=']) ++ ['=']).length % 4 = 0 := by simpa [Nat.add_assoc] using hlen
    simp only [hlen', if_true, List.getLast?_concat, List.dropLast_concat]

theorem atob_base64 (s : String) (halpha : ∀ c ∈ s.data, isUrlSafeChar c = true)
    (hlen : s.length % 4 ≠ 1) :
    atob (urlBase64ToUint8Array.base64 s) = some (atobDecode (s.data.map base64CharOf) 0 0) := by
  have hslen : s.length = s.data.length := rfl
  have hk : (4 - s.length % 4) % 4 ≤ 2 := by omega
  have hvalid : ∀ c ∈ s.data.map base64CharOf, (base64Index c).isSome = true ∧
      isAsciiWhitespace c = false := by
    intro c hc
    obtain ⟨a, ha, rfl⟩ := List.mem_map.mp hc
    obtain ⟨v, _, _, hv, hws⟩ := base64CharOf_index (halpha a ha)
    exact ⟨by simp [hv], hws⟩
  have hnoeq : ∀ c ∈ s.data.map base64CharOf, c ≠ '=' := by
    intro c hc heq
    have h := (hvalid c hc).1
    rw [heq] at h
    exact absurd h (by decide)
  have hfilter : (s.data.map base64CharOf ++ List.replicate ((4 - s.length % 4) % 4) '=').filter
      (fun c => !isAsciiWhitespace c) =
      s.data.map base64CharOf ++ List.replicate ((4 - s.length % 4) % 4) '=' := by
    rw [List.filter_eq_self]
    intro c hc
    rcases List.mem_append.mp hc with hc | hc
    · simp [(hvalid c hc).2]
    · rw [List.eq_of_mem_replicate hc]
      decide
  have hstrip := stripPadding_padded (s.data.map base64CharOf) ((4 - s.length % 4) % 4) hk
    (by simp only [List.length_map]; omega) hnoeq
  have hlen' : (s.data.map base64CharOf).length % 4 ≠ 1 := by
    simp only [List.length_map]
    omega
  have hall : (s.data.map base64CharOf).all (fun c => (base64Index c).isSome) = true := by
    rw [List.all_eq_true]
    exact fun c hc => (hvalid c hc).1
  unfold atob
  simp only [base64_eq, hfilter, hstrip, hlen', hall, if_true, if_false]

set_option maxRecDepth 100000 in
theorem vapidPublicKey_decoded :
    vapidPublicKey.length = 87 ∧
      (urlBase64ToUint8Array vapidPublicKey).map (fun bytes => (bytes.length, bytes.head?)) =
        some (65, some 4) := by
  decide

/-- Claim C12. For every string over the URL-safe base64 alphabet whose length
is not 1 modulo 4, the padded and translated string has a length divisible by 4
and contains neither `-` nor `_`, and `urlBase64ToUint8Array` returns the
base64url decoding of the string: `3 * length / 4` bytes (rounded down), each
below 256. For the key of `setupPushNotifications`, which has 87 characters,
the result has 65 bytes and its first byte is 4. -/
theorem urlBase64ToUint8Array_decodes (s : String)
    (halpha : ∀ c ∈ s.data, isUrlSafeChar c = true) (hlen : s.length % 4 ≠ 1) :
    ((urlBase64ToUint8Array.base64 s).length % 4 = 0 ∧
      '-' ∉ urlBase64ToUint8Array.base64 s ∧ '_' ∉ urlBase64ToUint8Array.base64 s) ∧
    (∃ bytes, urlBase64ToUint8Array s = some bytes ∧ base64urlDecode s.data = some bytes ∧
      bytes.length = 3 * s.length / 4 ∧ ∀ b ∈ bytes, b < 256) ∧
    (vapidPublicKey.length = 87 ∧
      ∃ bytes, urlBase64ToUint8Array vapidPublicKey = some bytes ∧ bytes.length = 65 ∧
        bytes.head? = some 4) := by
  have hslen : s.length = s.data.length := rfl
  refine ⟨⟨?_, ?_, ?_⟩, ?_, vapidPublicKey_decoded.1, ?_⟩
  · rw [base64_eq]
    simp only [List.length_append, List.length_map, List.length_replicate]
    omega
  · rw [base64_eq]
    intro hmem
    rcases List.mem_append.mp hmem with h | h
    · obtain ⟨a, _, ha⟩ := List.mem_map.mp h
      exact (base64CharOf_ne a).1 ha
    · exact absurd (List.eq_of_mem_replicate h) (by decide)
  · rw [base64_eq]
    intro hmem
    rcases List.mem_append.mp hmem with h | h
    · obtain ⟨a, _, ha⟩ := List.mem_map.mp h
      exact (base64CharOf_ne a).2 ha
    · exact absurd (List.eq_of_mem_replicate h) (by decide)
  · obtain ⟨bytes, hdecode, hatob, hlength, hbound⟩ :=
      decode_core s.data.length s.data (le_refl _) halpha (by omega)
    refine ⟨bytes, ?_, hdecode, by rw [hlength, hslen], hbound⟩
    unfold urlBase64ToUint8Array
    rw [atob_base64 s halpha hlen, hatob]
    have hmap : bytes.map (fun code => code % 256) = bytes := by
      conv_rhs => rw [← List.map_id bytes]
      apply List.map_congr_left
      intro b hb
      exact Nat.mod_eq_of_lt (hbound b hb)
    simp only [hmap]
  · have h := vapidPublicKey_decoded.2
    cases hv : urlBase64ToUint8Array vapidPublicKey with
    | none => simp [hv] at h
    | some bytes =>
      simp only [hv, Option.map_some', Option.some.injEq, Prod.mk.injEq] at h
      exact ⟨bytes, rfl, h.1, h.2⟩

set_option maxRecDepth 100000 in
theorem urlBase64ToUint8Array_decodes_witness :
    ((∀ c ∈ vapidPublicKey.data, isUrlSafeChar c = true) ∧ vapidPublicKey.length % 4 ≠ 1) ∧
    (((urlBase64ToUint8Array.base64 vapidPublicKey).length % 4 = 0 ∧
      '-' ∉ urlBase64ToUint8Array.base64 vapidPublicKey ∧
      '_' ∉ urlBase64ToUint8Array.base64 vapidPublicKey) ∧
    (∃ bytes, urlBase64ToUint8Array vapidPublicKey = some bytes ∧
      base64urlDecode vapidPublicKey.data = some bytes ∧
      bytes.length = 3 * vapidPublicKey.length / 4 ∧ ∀ b ∈ bytes, b < 256) ∧
    (vapidPublicKey.length = 87 ∧
      ∃ bytes, urlBase64ToUint8Array vapidPublicKey = some bytes ∧ bytes.length = 65 ∧
        bytes.head? = some 4)) :=
  ⟨⟨by decide, by decide⟩, urlBase64ToUint8Array_decodes vapidPublicKey (by decide) (by decide)⟩

end EcommercePwa
